import Mathlib

set_option maxHeartbeats 2000000
set_option maxRecDepth 8000

/-! Shallow embedding of the hangul-cd incremental Hangul composition engine
(src/lib/src of the repository): the jamo taxonomy and codepoint tables
(jamo.rs), the single-syllable-block state machine (block.rs), the word
composer (word.rs) and the string composer (string.rs).  Unicode characters
are modelled as natural-number codepoints, Rust `Result` as `Except`, and
`&mut self` methods as functions threading the state explicitly. -/

namespace HangulCd

/-- Decidable equality for `Except`, used to decide propositions about the
embedded fallible operations. -/
instance {ε α : Type} [DecidableEq ε] [DecidableEq α] :
    DecidableEq (Except ε α) := fun a b =>
  match a, b with
  | .error e1, .error e2 =>
    if h : e1 = e2 then isTrue (by rw [h])
    else isFalse (fun hc => h (by injection hc))
  | .ok a1, .ok a2 =>
    if h : a1 = a2 then isTrue (by rw [h])
    else isFalse (fun hc => h (by injection hc))
  | .error _, .ok _ => isFalse (fun hc => Except.noConfusion hc)
  | .ok _, .error _ => isFalse (fun hc => Except.noConfusion hc)

/-- Error enum of jamo.rs: a character that could not be converted to Jamo. -/
inductive JamoError where
  | fromCharError (c : Nat)
deriving DecidableEq

/-- Unicode classification of a codepoint, from jamo.rs `JamoUnicodeType`. -/
inductive JamoUnicodeType where
  | modern
  | compatibility
  | nonStandardModern
  | nonStandardCompatibility
  | nonHangul
deriving DecidableEq

/-- jamo.rs `JamoUnicodeType::evaluate`: range membership of a codepoint. -/
def JamoUnicodeType.evaluate (c : Nat) : JamoUnicodeType :=
  if (0x1100 ≤ c ∧ c ≤ 0x1112) ∨ (0x1161 ≤ c ∧ c ≤ 0x1175) ∨
      (0x11A8 ≤ c ∧ c ≤ 0x11C2) then .modern
  else if 0x3130 ≤ c ∧ c ≤ 0x3163 then .compatibility
  else if (0x1113 ≤ c ∧ c ≤ 0x1160) ∨ (0x1176 ≤ c ∧ c ≤ 0x11A7) ∨
      (0x11C3 ≤ c ∧ c ≤ 0x11FF) then .nonStandardModern
  else if 0x3164 ≤ c ∧ c ≤ 0x318F then .nonStandardCompatibility
  else .nonHangul

/-- The 14 singular Hangul consonant jamo, from jamo.rs. -/
inductive JamoConsonantSingular where
  | giyeok | nieun | digeut | rieul | mieum | bieup | siot
  | ieung | jieut | chieut | kieuk | tieut | pieup | hieut
deriving DecidableEq, Fintype

/-- The 16 composite Hangul consonant jamo, from jamo.rs. -/
inductive JamoConsonantComposite where
  | giyeokSiot | nieunJieut | nieunHieut | rieulGiyeok | rieulMieum
  | rieulBieup | rieulSiot | rieulTieut | rieulPieup | rieulHieut
  | ssangGiyeok | ssangDigeut | ssangBieup | ssangSiot | ssangJieut
  | bieupSiot
deriving DecidableEq, Fintype

/-- The 14 singular Hangul vowel jamo, from jamo.rs. -/
inductive JamoVowelSingular where
  | a | ae | ya | yae | eo | e | yeo | ye | o | yo | u | yu | eu | i
deriving DecidableEq, Fintype

/-- The 7 composite Hangul vowel jamo, from jamo.rs. -/
inductive JamoVowelComposite where
  | wa | wae | oe | wo | we | wi | ui
deriving DecidableEq, Fintype

/-- Tagged jamo value distinguishing the four categories, from jamo.rs. -/
inductive Jamo where
  | consonant (c : JamoConsonantSingular)
  | compositeConsonant (c : JamoConsonantComposite)
  | vowel (v : JamoVowelSingular)
  | compositeVowel (v : JamoVowelComposite)
deriving DecidableEq, Fintype

/-- Syllable-internal position of a jamo, from jamo.rs `JamoPosition`. -/
inductive JamoPosition where
  | initial
  | vowel
  | final
deriving DecidableEq

/-- jamo.rs `JamoConsonantSingular::char_modern_initial`. -/
def JamoConsonantSingular.char_modern_initial : JamoConsonantSingular → Nat
  | .giyeok => 0x1100
  | .nieun => 0x1102
  | .digeut => 0x1103
  | .rieul => 0x1105
  | .mieum => 0x1106
  | .bieup => 0x1107
  | .siot => 0x1109
  | .ieung => 0x110B
  | .jieut => 0x110C
  | .chieut => 0x110E
  | .kieuk => 0x110F
  | .tieut => 0x1110
  | .pieup => 0x1111
  | .hieut => 0x1112

/-- jamo.rs `JamoConsonantSingular::char_modern_final`. -/
def JamoConsonantSingular.char_modern_final : JamoConsonantSingular → Nat
  | .giyeok => 0x11A8
  | .nieun => 0x11AB
  | .digeut => 0x11AE
  | .rieul => 0x11AF
  | .mieum => 0x11B7
  | .bieup => 0x11B8
  | .siot => 0x11BA
  | .ieung => 0x11BC
  | .jieut => 0x11BD
  | .chieut => 0x11BE
  | .kieuk => 0x11BF
  | .tieut => 0x11C0
  | .pieup => 0x11C1
  | .hieut => 0x11C2

/-- jamo.rs `JamoConsonantSingular::char_modern`: position-specific modern
codepoint; `none` for the vowel position. -/
def JamoConsonantSingular.char_modern (c : JamoConsonantSingular)
    (position : JamoPosition) : Option Nat :=
  match position with
  | .initial => some c.char_modern_initial
  | .final => some c.char_modern_final
  | _ => none

/-- jamo.rs `JamoConsonantSingular::char_compatibility`. -/
def JamoConsonantSingular.char_compatibility : JamoConsonantSingular → Nat
  | .giyeok => 0x3131
  | .nieun => 0x3134
  | .digeut => 0x3137
  | .rieul => 0x3139
  | .mieum => 0x3141
  | .bieup => 0x3142
  | .siot => 0x3145
  | .ieung => 0x3147
  | .jieut => 0x3148
  | .chieut => 0x314A
  | .kieuk => 0x314B
  | .tieut => 0x314C
  | .pieup => 0x314D
  | .hieut => 0x314E

/-- jamo.rs `JamoConsonantSingular::combine_for_initial`: the 5 geminate
doubles legal word-initially. -/
def JamoConsonantSingular.combine_for_initial :
    JamoConsonantSingular → JamoConsonantSingular →
    Option JamoConsonantComposite
  | .giyeok, .giyeok => some .ssangGiyeok
  | .digeut, .digeut => some .ssangDigeut
  | .bieup, .bieup => some .ssangBieup
  | .siot, .siot => some .ssangSiot
  | .jieut, .jieut => some .ssangJieut
  | _, _ => none

/-- jamo.rs `JamoConsonantSingular::combine_for_final`: the cluster and
geminate combinations accepted in the final position. -/
def JamoConsonantSingular.combine_for_final :
    JamoConsonantSingular → JamoConsonantSingular →
    Option JamoConsonantComposite
  | .giyeok, .siot => some .giyeokSiot
  | .nieun, .jieut => some .nieunJieut
  | .nieun, .hieut => some .nieunHieut
  | .rieul, .giyeok => some .rieulGiyeok
  | .rieul, .mieum => some .rieulMieum
  | .rieul, .bieup => some .rieulBieup
  | .rieul, .siot => some .rieulSiot
  | .rieul, .tieut => some .rieulTieut
  | .rieul, .pieup => some .rieulPieup
  | .rieul, .hieut => some .rieulHieut
  | .giyeok, .giyeok => some .ssangGiyeok
  | .siot, .siot => some .ssangSiot
  | .bieup, .siot => some .bieupSiot
  | _, _ => none

/-- jamo.rs `JamoConsonantComposite::char_modern_initial`. -/
def JamoConsonantComposite.char_modern_initial :
    JamoConsonantComposite → Option Nat
  | .ssangGiyeok => some 0x1101
  | .ssangDigeut => some 0x1104
  | .ssangBieup => some 0x1108
  | .ssangSiot => some 0x110A
  | .ssangJieut => some 0x110D
  | _ => none

/-- jamo.rs `JamoConsonantComposite::char_modern_final`. -/
def JamoConsonantComposite.char_modern_final :
    JamoConsonantComposite → Option Nat
  | .giyeokSiot => some 0x11AA
  | .nieunJieut => some 0x11AC
  | .nieunHieut => some 0x11AD
  | .rieulGiyeok => some 0x11B0
  | .rieulMieum => some 0x11B1
  | .rieulBieup => some 0x11B2
  | .rieulSiot => some 0x11B3
  | .rieulTieut => some 0x11B4
  | .rieulPieup => some 0x11B5
  | .rieulHieut => some 0x11B6
  | .ssangGiyeok => some 0x11A9
  | .ssangSiot => some 0x11BB
  | .bieupSiot => some 0x11B9
  | _ => none

/-- jamo.rs `JamoConsonantComposite::char_modern`. -/
def JamoConsonantComposite.char_modern (c : JamoConsonantComposite)
    (position : JamoPosition) : Option Nat :=
  match position with
  | .initial => c.char_modern_initial
  | .final => c.char_modern_final
  | _ => none

/-- jamo.rs `JamoConsonantComposite::char_compatibility`. -/
def JamoConsonantComposite.char_compatibility : JamoConsonantComposite → Nat
  | .giyeokSiot => 0x3133
  | .nieunJieut => 0x3135
  | .nieunHieut => 0x3136
  | .rieulGiyeok => 0x313A
  | .rieulMieum => 0x313B
  | .rieulBieup => 0x313C
  | .rieulSiot => 0x313D
  | .rieulTieut => 0x313E
  | .rieulPieup => 0x313F
  | .rieulHieut => 0x3140
  | .ssangGiyeok => 0x3132
  | .ssangDigeut => 0x3138
  | .ssangBieup => 0x3143
  | .ssangSiot => 0x3146
  | .ssangJieut => 0x3149
  | .bieupSiot => 0x3144

/-- jamo.rs `JamoConsonantComposite::decompose`: the two constituent
singular consonants, wrapped as `Jamo` values. -/
def JamoConsonantComposite.decompose : JamoConsonantComposite → Jamo × Jamo
  | .giyeokSiot => (.consonant .giyeok, .consonant .siot)
  | .nieunJieut => (.consonant .nieun, .consonant .jieut)
  | .nieunHieut => (.consonant .nieun, .consonant .hieut)
  | .rieulGiyeok => (.consonant .rieul, .consonant .giyeok)
  | .rieulMieum => (.consonant .rieul, .consonant .mieum)
  | .rieulBieup => (.consonant .rieul, .consonant .bieup)
  | .rieulSiot => (.consonant .rieul, .consonant .siot)
  | .rieulTieut => (.consonant .rieul, .consonant .tieut)
  | .rieulPieup => (.consonant .rieul, .consonant .pieup)
  | .rieulHieut => (.consonant .rieul, .consonant .hieut)
  | .ssangGiyeok => (.consonant .giyeok, .consonant .giyeok)
  | .ssangDigeut => (.consonant .digeut, .consonant .digeut)
  | .ssangBieup => (.consonant .bieup, .consonant .bieup)
  | .ssangSiot => (.consonant .siot, .consonant .siot)
  | .ssangJieut => (.consonant .jieut, .consonant .jieut)
  | .bieupSiot => (.consonant .bieup, .consonant .siot)

/-- jamo.rs `JamoConsonantComposite::is_valid_initial`. -/
def JamoConsonantComposite.is_valid_initial : JamoConsonantComposite → Bool
  | .ssangGiyeok | .ssangDigeut | .ssangBieup | .ssangSiot | .ssangJieut =>
      true
  | _ => false

/-- jamo.rs `JamoConsonantComposite::is_valid_final`. -/
def JamoConsonantComposite.is_valid_final : JamoConsonantComposite → Bool
  | .giyeokSiot | .nieunJieut | .nieunHieut | .rieulGiyeok | .rieulMieum
  | .rieulBieup | .rieulSiot | .rieulTieut | .rieulPieup | .rieulHieut
  | .ssangGiyeok | .ssangSiot | .bieupSiot => true
  | _ => false

/-- jamo.rs `JamoVowelSingular::char_modern`. -/
def JamoVowelSingular.char_modern : JamoVowelSingular → Nat
  | .a => 0x1161
  | .ae => 0x1162
  | .ya => 0x1163
  | .yae => 0x1164
  | .eo => 0x1165
  | .e => 0x1166
  | .yeo => 0x1167
  | .ye => 0x1168
  | .o => 0x1169
  | .yo => 0x116D
  | .u => 0x116E
  | .yu => 0x1172
  | .eu => 0x1173
  | .i => 0x1175

/-- jamo.rs `JamoVowelSingular::char_compatibility`. -/
def JamoVowelSingular.char_compatibility : JamoVowelSingular → Nat
  | .a => 0x314F
  | .ae => 0x3150
  | .ya => 0x3151
  | .yae => 0x3152
  | .eo => 0x3153
  | .e => 0x3154
  | .yeo => 0x3155
  | .ye => 0x3156
  | .o => 0x3157
  | .yo => 0x315B
  | .u => 0x315C
  | .yu => 0x3160
  | .eu => 0x3161
  | .i => 0x3163

/-- jamo.rs `JamoVowelSingular::combine`: the 7 diphthong pairs. -/
def JamoVowelSingular.combine :
    JamoVowelSingular → JamoVowelSingular → Option JamoVowelComposite
  | .o, .a => some .wa
  | .o, .ae => some .wae
  | .o, .i => some .oe
  | .u, .eo => some .wo
  | .u, .e => some .we
  | .u, .i => some .wi
  | .eu, .i => some .ui
  | _, _ => none

/-- jamo.rs `JamoVowelComposite::char_modern`. -/
def JamoVowelComposite.char_modern : JamoVowelComposite → Nat
  | .wa => 0x116A
  | .wae => 0x116B
  | .oe => 0x116C
  | .wo => 0x116F
  | .we => 0x1170
  | .wi => 0x1171
  | .ui => 0x1174

/-- jamo.rs `JamoVowelComposite::char_compatibility`. -/
def JamoVowelComposite.char_compatibility : JamoVowelComposite → Nat
  | .wa => 0x3158
  | .wae => 0x3159
  | .oe => 0x315A
  | .wo => 0x315D
  | .we => 0x315E
  | .wi => 0x315F
  | .ui => 0x3162

/-- jamo.rs `JamoVowelComposite::decompose`: the two constituent singular
vowels, wrapped as `Jamo` values. -/
def JamoVowelComposite.decompose : JamoVowelComposite → Jamo × Jamo
  | .wa => (.vowel .o, .vowel .a)
  | .wae => (.vowel .o, .vowel .ae)
  | .oe => (.vowel .o, .vowel .i)
  | .wo => (.vowel .u, .vowel .eo)
  | .we => (.vowel .u, .vowel .e)
  | .wi => (.vowel .u, .vowel .i)
  | .ui => (.vowel .eu, .vowel .i)

/-- jamo.rs `Jamo::char_compatibility`. -/
def Jamo.char_compatibility : Jamo → Nat
  | .consonant c => c.char_compatibility
  | .compositeConsonant c => c.char_compatibility
  | .vowel v => v.char_compatibility
  | .compositeVowel v => v.char_compatibility

/-- jamo.rs `Jamo::char_modern`: position-specific modern codepoint. -/
def Jamo.char_modern (j : Jamo) (position : JamoPosition) : Option Nat :=
  match j with
  | .consonant c => c.char_modern position
  | .compositeConsonant c =>
    match position with
    | .initial => c.char_modern_initial
    | .final => c.char_modern_final
    | .vowel => none
  | .vowel c =>
    match position with
    | .vowel => some c.char_modern
    | _ => none
  | .compositeVowel c =>
    match position with
    | .vowel => some c.char_modern
    | _ => none

/-- jamo.rs `modern_to_compatibility_jamo`: maps a modern-block codepoint to
its compatibility-block equivalent, leaving other codepoints unchanged. -/
def modern_to_compatibility_jamo (c : Nat) : Nat :=
  match c with
  | 0x1100 => 0x3131
  | 0x1101 => 0x3132
  | 0x1102 => 0x3134
  | 0x1103 => 0x3137
  | 0x1104 => 0x3138
  | 0x1105 => 0x3139
  | 0x1106 => 0x3141
  | 0x1107 => 0x3142
  | 0x1108 => 0x3143
  | 0x1109 => 0x3145
  | 0x110A => 0x3146
  | 0x110B => 0x3147
  | 0x110C => 0x3148
  | 0x110D => 0x3149
  | 0x110E => 0x314A
  | 0x110F => 0x314B
  | 0x1110 => 0x314C
  | 0x1111 => 0x314D
  | 0x1112 => 0x314E
  | 0x1161 => 0x314F
  | 0x1162 => 0x3150
  | 0x1163 => 0x3151
  | 0x1164 => 0x3152
  | 0x1165 => 0x3153
  | 0x1166 => 0x3154
  | 0x1167 => 0x3155
  | 0x1168 => 0x3156
  | 0x1169 => 0x3157
  | 0x116A => 0x3158
  | 0x116B => 0x3159
  | 0x116C => 0x315A
  | 0x116D => 0x315B
  | 0x116E => 0x315C
  | 0x116F => 0x315D
  | 0x1170 => 0x315E
  | 0x1171 => 0x315F
  | 0x1172 => 0x3160
  | 0x1173 => 0x3161
  | 0x1174 => 0x3162
  | 0x1175 => 0x3163
  | 0x11A8 => 0x3131
  | 0x11A9 => 0x3132
  | 0x11AA => 0x3133
  | 0x11AB => 0x3134
  | 0x11AC => 0x3135
  | 0x11AD => 0x3136
  | 0x11AE => 0x3137
  | 0x11AF => 0x3139
  | 0x11B0 => 0x313A
  | 0x11B1 => 0x313B
  | 0x11B2 => 0x313C
  | 0x11B3 => 0x313D
  | 0x11B4 => 0x313E
  | 0x11B5 => 0x313F
  | 0x11B6 => 0x3140
  | 0x11B7 => 0x3141
  | 0x11B8 => 0x3142
  | 0x11B9 => 0x3144
  | 0x11BA => 0x3145
  | 0x11BB => 0x3146
  | 0x11BC => 0x3147
  | 0x11BD => 0x3148
  | 0x11BE => 0x314A
  | 0x11BF => 0x314B
  | 0x11C0 => 0x314C
  | 0x11C1 => 0x314D
  | 0x11C2 => 0x314E
  | other => other

/-- jamo.rs `Jamo::from_compatibility_jamo`: builds a `Jamo` from a
compatibility-block codepoint. -/
def Jamo.from_compatibility_jamo (c : Nat) : Except JamoError Jamo :=
  match c with
  | 0x3131 => .ok (.consonant .giyeok)
  | 0x3134 => .ok (.consonant .nieun)
  | 0x3137 => .ok (.consonant .digeut)
  | 0x3139 => .ok (.consonant .rieul)
  | 0x3141 => .ok (.consonant .mieum)
  | 0x3142 => .ok (.consonant .bieup)
  | 0x3145 => .ok (.consonant .siot)
  | 0x3147 => .ok (.consonant .ieung)
  | 0x3148 => .ok (.consonant .jieut)
  | 0x314A => .ok (.consonant .chieut)
  | 0x314B => .ok (.consonant .kieuk)
  | 0x314C => .ok (.consonant .tieut)
  | 0x314D => .ok (.consonant .pieup)
  | 0x314E => .ok (.consonant .hieut)
  | 0x3133 => .ok (.compositeConsonant .giyeokSiot)
  | 0x3135 => .ok (.compositeConsonant .nieunJieut)
  | 0x3136 => .ok (.compositeConsonant .nieunHieut)
  | 0x313A => .ok (.compositeConsonant .rieulGiyeok)
  | 0x313B => .ok (.compositeConsonant .rieulMieum)
  | 0x313C => .ok (.compositeConsonant .rieulBieup)
  | 0x313D => .ok (.compositeConsonant .rieulSiot)
  | 0x313E => .ok (.compositeConsonant .rieulTieut)
  | 0x313F => .ok (.compositeConsonant .rieulPieup)
  | 0x3140 => .ok (.compositeConsonant .rieulHieut)
  | 0x3132 => .ok (.compositeConsonant .ssangGiyeok)
  | 0x3138 => .ok (.compositeConsonant .ssangDigeut)
  | 0x3143 => .ok (.compositeConsonant .ssangBieup)
  | 0x3146 => .ok (.compositeConsonant .ssangSiot)
  | 0x3149 => .ok (.compositeConsonant .ssangJieut)
  | 0x3144 => .ok (.compositeConsonant .bieupSiot)
  | 0x314F => .ok (.vowel .a)
  | 0x3150 => .ok (.vowel .ae)
  | 0x3151 => .ok (.vowel .ya)
  | 0x3152 => .ok (.vowel .yae)
  | 0x3153 => .ok (.vowel .eo)
  | 0x3154 => .ok (.vowel .e)
  | 0x3155 => .ok (.vowel .yeo)
  | 0x3156 => .ok (.vowel .ye)
  | 0x3157 => .ok (.vowel .o)
  | 0x315B => .ok (.vowel .yo)
  | 0x315C => .ok (.vowel .u)
  | 0x3160 => .ok (.vowel .yu)
  | 0x3161 => .ok (.vowel .eu)
  | 0x3163 => .ok (.vowel .i)
  | 0x3158 => .ok (.compositeVowel .wa)
  | 0x3159 => .ok (.compositeVowel .wae)
  | 0x315A => .ok (.compositeVowel .oe)
  | 0x315D => .ok (.compositeVowel .wo)
  | 0x315E => .ok (.compositeVowel .we)
  | 0x315F => .ok (.compositeVowel .wi)
  | 0x3162 => .ok (.compositeVowel .ui)
  | _ => .error (.fromCharError c)

/-- jamo.rs `Jamo::from_modern_jamo`: converts to compatibility form first,
then builds the `Jamo`. -/
def Jamo.from_modern_jamo (c : Nat) : Except JamoError Jamo :=
  Jamo.from_compatibility_jamo (modern_to_compatibility_jamo c)

/-- jamo.rs `Character`: a classified input character. -/
inductive Character where
  | nonHangul (c : Nat)
  | hangul (j : Jamo)
deriving DecidableEq

/-- jamo.rs `Character::from_char`: classifies a codepoint and converts
recognized jamo codepoints to `Jamo` values. -/
def Character.from_char (c : Nat) : Except JamoError Character :=
  match JamoUnicodeType.evaluate c with
  | .modern =>
    match Jamo.from_compatibility_jamo (modern_to_compatibility_jamo c) with
    | .ok j => .ok (.hangul j)
    | .error e => .error e
  | .compatibility =>
    match Jamo.from_compatibility_jamo c with
    | .ok j => .ok (.hangul j)
    | .error e => .error e
  | _ => .ok (.nonHangul c)

/-! block.rs: syllable blocks and the single-block composition machine. -/

/-- Jamo arithmetic constants from jamo.rs. -/
def S_BASE : Nat := 0xAC00

def L_BASE : Nat := 0x1100

def V_BASE : Nat := 0x1161

def T_BASE : Nat := 0x11A7

def V_COUNT : Nat := 21

def T_COUNT : Nat := 28

def N_COUNT : Nat := V_COUNT * T_COUNT

def S_COUNT : Nat := 11172

/-- Model of Rust `std::char::from_u32`: `some` exactly on Unicode scalar
values. -/
def charFromU32 (n : Nat) : Option Nat :=
  if n < 0xD800 ∨ (0xE000 ≤ n ∧ n ≤ 0x10FFFF) then some n else none

/-- block.rs `HangulBlock`: one fully or partially specified syllable. -/
structure HangulBlock where
  initial : Jamo
  vowel : Jamo
  final_optional : Option Jamo
deriving DecidableEq

/-- block.rs `HangulBlock::to_char`: composes the block into a precomposed
syllable codepoint via the standard L/V/T arithmetic. -/
def HangulBlock.to_char (b : HangulBlock) : Except Nat Nat :=
  match b.initial.char_modern .initial with
  | none => .error 0
  | some initial =>
    match b.vowel.char_modern .vowel with
    | none => .error 0
    | some vowel =>
      let final_optional : Option Nat :=
        match b.final_optional with
        | some c => c.char_modern .final
        | none => none
      let initial_num := initial
      let vowel_num := vowel
      let final_num : Nat :=
        match final_optional with
        | some c => c
        | none => 0
      let l_index := initial_num - L_BASE
      let v_index := vowel_num - V_BASE
      let t_index := if final_num = 0 then 0 else final_num - T_BASE
      let s_index := l_index * N_COUNT + v_index * T_COUNT + t_index
      match charFromU32 (S_BASE + s_index) with
      | some c => .ok c
      | none => .error (S_BASE + s_index)

/-- block.rs `HangulBlock::from_char`: decodes a precomposed syllable
codepoint back into a block. -/
def HangulBlock.from_char (c : Nat) : Except String HangulBlock :=
  if c < S_BASE ∨ c > S_BASE + S_COUNT then
    .error "not a valid Hangul syllable block"
  else
    let s_index := c - S_BASE
    let l_index := s_index / N_COUNT
    let v_index := s_index % N_COUNT / T_COUNT
    let t_index := s_index % T_COUNT
    match charFromU32 (L_BASE + l_index) with
    | none => .error "Invalid initial Jamo codepoint"
    | some lc =>
      match Jamo.from_modern_jamo lc with
      | .error _ => .error "could not convert initial character to Jamo"
      | .ok initial =>
        match charFromU32 (V_BASE + v_index) with
        | none => .error "Invalid vowel Jamo codepoint"
        | some vc =>
          match Jamo.from_modern_jamo vc with
          | .error _ => .error "could not convert vowel character to Jamo"
          | .ok vowel =>
            if t_index > 0 then
              match charFromU32 (T_BASE + t_index) with
              | none => .error "Invalid final Jamo codepoint"
              | some tc =>
                match Jamo.from_modern_jamo tc with
                | .error _ =>
                  .error "could not convert final character to Jamo"
                | .ok fin =>
                  .ok ⟨initial, vowel, some fin⟩
            else
              .ok ⟨initial, vowel, none⟩

/-- block.rs `HangulBlock::decomposed_tuple`: the six decomposed jamo slots
of the block, in insertion order. -/
def HangulBlock.decomposed_tuple (b : HangulBlock) :
    Except String
      (Option Jamo × Option Jamo × Option Jamo × Option Jamo ×
        Option Jamo × Option Jamo) :=
  let i : Option Jamo × Option Jamo :=
    match b.initial with
    | .compositeConsonant c => (some c.decompose.1, some c.decompose.2)
    | .consonant c => (some (.consonant c), none)
    | _ => (none, none)
  let v : Option Jamo × Option Jamo :=
    match b.vowel with
    | .compositeVowel c => (some c.decompose.1, some c.decompose.2)
    | .vowel c => (some (.vowel c), none)
    | _ => (none, none)
  let f : Option Jamo × Option Jamo :=
    match b.final_optional with
    | some (.compositeConsonant c) => (some c.decompose.1, some c.decompose.2)
    | some (.consonant c) => (some (.consonant c), none)
    | _ => (none, none)
  .ok (i.1, i.2, v.1, v.2, f.1, f.2)

/-- block.rs `BlockPushResult`. -/
inductive BlockPushResult where
  | success
  | startNewBlockNoPop
  | popAndStartNewBlock
  | invalidHangul
  | nonHangul
deriving DecidableEq

/-- block.rs `BlockCompositionState`: the seven machine states. -/
inductive BlockCompositionState where
  | expectingInitial
  | expectingDoubleInitialOrVowel
  | expectingVowel
  | expectingCompositeVowelOrFinal
  | expectingFinal
  | expectingCompositeFinal
  | expectingNextBlock
deriving DecidableEq

/-- block.rs `BlockComposer`: accumulator for one in-progress block. -/
structure BlockComposer where
  state : BlockCompositionState
  initial_first : Option Jamo
  initial_second : Option Jamo
  vowel_first : Option Jamo
  vowel_second : Option Jamo
  final_first : Option Jamo
  final_second : Option Jamo
deriving DecidableEq

/-- block.rs `BlockCompletionStatus`. -/
inductive BlockCompletionStatus where
  | complete (b : HangulBlock)
  | incomplete (j : Jamo)
  | empty
deriving DecidableEq

/-- block.rs `BlockPopStatus`. -/
inductive BlockPopStatus where
  | poppedAndNonEmpty (j : Jamo)
  | poppedAndEmpty (j : Jamo)
  | none
deriving DecidableEq

/-- block.rs `BlockComposer::new`: the empty composer. -/
def BlockComposer.new : BlockComposer :=
  ⟨.expectingInitial, none, none, none, none, none, none⟩

/-- block.rs `BlockComposer::try_push_initial`. -/
def BlockComposer.try_push_initial (b : BlockComposer) (letter : Jamo) :
    BlockComposer × BlockPushResult :=
  match letter with
  | .consonant _ =>
    ({ b with initial_first := some letter, state := .expectingDoubleInitialOrVowel }, .success)
  | .compositeConsonant c =>
    if c.is_valid_initial then
      ({ b with initial_first := some letter, state := .expectingVowel },
        .success)
    else
      (b, .invalidHangul)
  | _ => (b, .invalidHangul)

/-- block.rs `BlockComposer::try_push_double_initial_or_vowel`. -/
def BlockComposer.try_push_double_initial_or_vowel (b : BlockComposer)
    (letter : Jamo) : BlockComposer × BlockPushResult :=
  match letter with
  | .consonant c =>
    match b.initial_first with
    | some (.consonant i1) =>
      if (i1.combine_for_initial c).isSome then
        ({ b with initial_second := some letter, state := .expectingVowel },
          .success)
      else
        (b, .invalidHangul)
    | _ => (b, .invalidHangul)
  | .vowel _ =>
    ({ b with vowel_first := some letter, state := .expectingCompositeVowelOrFinal }, .success)
  | .compositeVowel c =>
    ({ b with vowel_first := some c.decompose.1, vowel_second := some c.decompose.2, state := .expectingFinal },
      .success)
  | .compositeConsonant _ => (b, .invalidHangul)

/-- block.rs `BlockComposer::try_push_vowel`. -/
def BlockComposer.try_push_vowel (b : BlockComposer) (letter : Jamo) :
    BlockComposer × BlockPushResult :=
  match letter with
  | .vowel _ =>
    ({ b with vowel_first := some letter, state := .expectingCompositeVowelOrFinal }, .success)
  | .compositeVowel c =>
    ({ b with vowel_first := some c.decompose.1, vowel_second := some c.decompose.2, state := .expectingFinal },
      .success)
  | _ => (b, .invalidHangul)

/-- block.rs `BlockComposer::try_push_composite_vowel_or_final`. -/
def BlockComposer.try_push_composite_vowel_or_final (b : BlockComposer)
    (letter : Jamo) : BlockComposer × BlockPushResult :=
  match letter with
  | .vowel c =>
    match b.vowel_first with
    | some (.vowel v1) =>
      if (v1.combine c).isSome then
        ({ b with vowel_second := some letter, state := .expectingFinal },
          .success)
      else
        (b, .invalidHangul)
    | _ => (b, .invalidHangul)
  | .consonant _ =>
    ({ b with final_first := some letter, state := .expectingCompositeFinal }, .success)
  | .compositeConsonant c =>
    if c.is_valid_final then
      ({ b with final_first := some c.decompose.1, final_second := some c.decompose.2, state := .expectingNextBlock }, .success)
    else if c.is_valid_initial then
      (b, .startNewBlockNoPop)
    else
      (b, .invalidHangul)
  | _ => (b, .invalidHangul)

/-- block.rs `BlockComposer::try_push_final`. -/
def BlockComposer.try_push_final (b : BlockComposer) (letter : Jamo) :
    BlockComposer × BlockPushResult :=
  match letter with
  | .consonant _ =>
    ({ b with final_first := some letter, state := .expectingCompositeFinal }, .success)
  | .compositeConsonant c =>
    if c.is_valid_final then
      ({ b with final_first := some c.decompose.1, final_second := some c.decompose.2, state := .expectingNextBlock }, .success)
    else if c.is_valid_initial then
      (b, .startNewBlockNoPop)
    else
      (b, .invalidHangul)
  | _ => (b, .invalidHangul)

/-- block.rs `BlockComposer::try_push_composite_final`. -/
def BlockComposer.try_push_composite_final (b : BlockComposer)
    (letter : Jamo) : BlockComposer × BlockPushResult :=
  match letter with
  | .consonant c =>
    match b.final_first with
    | some (.consonant f1) =>
      if (f1.combine_for_final c).isSome then
        ({ b with final_second := some letter, state := .expectingNextBlock }, .success)
      else
        (b, .startNewBlockNoPop)
    | _ => (b, .invalidHangul)
  | .compositeConsonant c =>
    if c.is_valid_initial then
      (b, .startNewBlockNoPop)
    else
      (b, .invalidHangul)
  | _ => (b, .popAndStartNewBlock)

/-- block.rs `BlockComposer::try_push_next_block`. -/
def BlockComposer.try_push_next_block (b : BlockComposer) (letter : Jamo) :
    BlockComposer × BlockPushResult :=
  match letter with
  | .consonant _ | .compositeConsonant _ => (b, .startNewBlockNoPop)
  | .vowel _ | .compositeVowel _ => (b, .popAndStartNewBlock)

/-- block.rs `BlockComposer::push`: dispatches on the machine state. -/
def BlockComposer.push (b : BlockComposer) (letter : Jamo) :
    BlockComposer × BlockPushResult :=
  match b.state with
  | .expectingInitial => b.try_push_initial letter
  | .expectingDoubleInitialOrVowel =>
    b.try_push_double_initial_or_vowel letter
  | .expectingVowel => b.try_push_vowel letter
  | .expectingCompositeVowelOrFinal =>
    b.try_push_composite_vowel_or_final letter
  | .expectingFinal => b.try_push_final letter
  | .expectingCompositeFinal => b.try_push_composite_final letter
  | .expectingNextBlock => b.try_push_next_block letter

/-- block.rs `BlockComposer::pop`: removes the most recently added jamo,
scanning the six slots from final-second back to initial-first. -/
def BlockComposer.pop (b : BlockComposer) :
    BlockComposer × BlockPopStatus :=
  match b.final_second with
  | some c =>
    ({ b with final_second := none, state := .expectingCompositeFinal },
      .poppedAndNonEmpty c)
  | none =>
    match b.final_first with
    | some c =>
      ({ b with final_first := none, state := match b.vowel_second with
            | some _ => .expectingFinal
            | none => .expectingCompositeVowelOrFinal },
        .poppedAndNonEmpty c)
    | none =>
      match b.vowel_second with
      | some c =>
        ({ b with vowel_second := none, state := .expectingCompositeVowelOrFinal },
          .poppedAndNonEmpty c)
      | none =>
        match b.vowel_first with
        | some c =>
          ({ b with vowel_first := none, state := match b.initial_second with
                | some _ => .expectingVowel
                | none => .expectingDoubleInitialOrVowel },
            .poppedAndNonEmpty c)
        | none =>
          match b.initial_second with
          | some c =>
            ({ b with initial_second := none, state := .expectingVowel },
              .poppedAndNonEmpty c)
          | none =>
            match b.initial_first with
            | some c =>
              ({ b with initial_first := none, state := .expectingInitial }, .poppedAndEmpty c)
            | none =>
              ({ b with state := .expectingInitial }, .none)

/-- block.rs `BlockComposer::pop_end_consonant`: detaches the trailing
final-consonant slot, preferring the second slot. -/
def BlockComposer.pop_end_consonant (b : BlockComposer) :
    BlockComposer × Option Jamo :=
  match b.final_second with
  | some c => ({ b with final_second := none }, some c)
  | none =>
    match b.final_first with
    | some c => ({ b with final_first := none }, some c)
    | none => (b, none)

/-- block.rs `BlockComposer::try_as_complete_block`: materializes composite
initial/vowel/final from the slot pairs and classifies completeness. -/
def BlockComposer.try_as_complete_block (b : BlockComposer) :
    Except String BlockCompletionStatus :=
  let initial_optional : Except String (Option Jamo) :=
    match b.initial_first, b.initial_second with
    | some (.consonant i1), some (.consonant i2) =>
      match i1.combine_for_initial i2 with
      | some c => .ok (some (.compositeConsonant c))
      | none => .error "Invalid composite initial consonant"
    | some i1, none => .ok (some i1)
    | _, _ => .ok none
  let vowel_optional : Except String (Option Jamo) :=
    match b.vowel_first, b.vowel_second with
    | some (.vowel v1), some (.vowel v2) =>
      match v1.combine v2 with
      | some c => .ok (some (.compositeVowel c))
      | none => .error "Invalid composite vowel"
    | some v1, none => .ok (some v1)
    | _, _ => .ok none
  let final_optional : Except String (Option Jamo) :=
    match b.final_first, b.final_second with
    | some (.consonant f1), some (.consonant f2) =>
      match f1.combine_for_final f2 with
      | some c => .ok (some (.compositeConsonant c))
      | none => .error "Invalid composite final consonant"
    | some f1, none => .ok (some f1)
    | _, _ => .ok none
  match initial_optional with
  | .error e => .error e
  | .ok io =>
    match vowel_optional with
    | .error e => .error e
    | .ok vo =>
      match final_optional with
      | .error e => .error e
      | .ok fo =>
        match io, vo with
        | some initial, some vowel => .ok (.complete ⟨initial, vowel, fo⟩)
        | some initial, none => .ok (.incomplete initial)
        | none, some vowel => .ok (.incomplete vowel)
        | none, none =>
          match fo with
          | some f => .ok (.incomplete f)
          | none => .ok .empty

/-- The surface position used when rendering a lone jamo: the inline match
appearing both in block.rs `block_as_string` and string.rs `pop`
(initial-position for consonants, vowel-position for vowels). -/
def Jamo.surface_position : Jamo → JamoPosition
  | .consonant _ | .compositeConsonant _ => .initial
  | .vowel _ | .compositeVowel _ => .vowel

/-- block.rs `BlockComposer::block_as_string`: the composed character of a
complete block, the modern jamo of an incomplete one, `none` if empty. -/
def BlockComposer.block_as_string (b : BlockComposer) :
    Except String (Option Nat) :=
  match b.try_as_complete_block with
  | .error e => .error e
  | .ok (.complete block) =>
    match block.to_char with
    | .ok c => .ok (some c)
    | .error _ => .error "Error converting block to char"
  | .ok (.incomplete c) => .ok (c.char_modern c.surface_position)
  | .ok .empty => .ok none

/-- block.rs `BlockComposer::from_composed_block`: re-expands a sealed
block into editable slot/state form. -/
def BlockComposer.from_composed_block (block : HangulBlock) :
    Except String BlockComposer :=
  match block.decomposed_tuple with
  | .error e => .error e
  | .ok (i1, i2, v1, v2, f1, f2) =>
    let state : BlockCompositionState :=
      if f2.isSome then .expectingNextBlock
      else if f1.isSome then .expectingCompositeFinal
      else if v2.isSome then .expectingFinal
      else if v1.isSome then .expectingCompositeVowelOrFinal
      else if i2.isSome then .expectingVowel
      else if i1.isSome then .expectingDoubleInitialOrVowel
      else .expectingInitial
    .ok ⟨state, i1, i2, v1, v2, f1, f2⟩

/-- block.rs `hangul_blocks_vec_to_string`: composed characters of a list
of blocks. -/
def hangul_blocks_vec_to_string : List HangulBlock →
    Except String (List Nat)
  | [] => .ok []
  | block :: rest =>
    match block.to_char with
    | .ok c =>
      match hangul_blocks_vec_to_string rest with
      | .ok s => .ok (c :: s)
      | .error e => .error e
    | .error _ => .error "Failed to convert HangulBlock to char"

/-! word.rs: the multi-block Hangul word composer. -/

/-- word.rs `WordError`. -/
inductive WordError where
  | blockError (e : String)
  | jamoError (e : JamoError)
  | couldNotStartNewBlock (c : Nat) (r : BlockPushResult)
  | nothingToPop
  | cannotCompleteCurrentBlock (j : Jamo)
deriving DecidableEq

/-- word.rs `WordPushResult`. -/
inductive WordPushResult where
  | continue
  | invalidHangul
  | nonHangul
deriving DecidableEq

/-- word.rs `HangulWordComposer`: sealed blocks plus the in-progress one. -/
structure HangulWordComposer where
  prev_blocks : List HangulBlock
  cur_block : BlockComposer
deriving DecidableEq

/-- word.rs `HangulWordComposer::new`. -/
def HangulWordComposer.new : HangulWordComposer :=
  ⟨[], BlockComposer.new⟩

/-- word.rs `HangulWordComposer::complete_current_block`: seals a complete
current block onto the sequence and resets the current block. -/
def HangulWordComposer.complete_current_block (w : HangulWordComposer) :
    HangulWordComposer × Except WordError Unit :=
  match w.cur_block.try_as_complete_block with
  | .error e => (w, .error (.blockError e))
  | .ok (.complete block) =>
    ({ prev_blocks := w.prev_blocks ++ [block],
        cur_block := BlockComposer.new }, .ok ())
  | .ok (.incomplete c) => (w, .error (.cannotCompleteCurrentBlock c))
  | .ok .empty => (w, .ok ())

/-- word.rs `HangulWordComposer::start_new_block`. -/
def HangulWordComposer.start_new_block (w : HangulWordComposer)
    (letter : Jamo) : HangulWordComposer × Except WordError Unit :=
  match w.complete_current_block with
  | (w1, .error e) => (w1, .error e)
  | (w1, .ok ()) =>
    let p := w1.cur_block.push letter
    let w2 := { w1 with cur_block := p.1 }
    match p.2 with
    | .success => (w2, .ok ())
    | other =>
      (w2, .error (.couldNotStartNewBlock letter.char_compatibility other))

/-- word.rs `HangulWordComposer::pop_and_start_new_block`: detaches the
trailing final consonant, seals the rest, and reuses the consonant as the
initial of a fresh block. -/
def HangulWordComposer.pop_and_start_new_block (w : HangulWordComposer)
    (letter : Jamo) : HangulWordComposer × Except WordError Unit :=
  let q := w.cur_block.pop_end_consonant
  let w0 := { w with cur_block := q.1 }
  match q.2 with
  | some l =>
    match w0.complete_current_block with
    | (w1, .error e) => (w1, .error e)
    | (w1, .ok ()) =>
      let p1 := w1.cur_block.push l
      let w2 := { w1 with cur_block := p1.1 }
      let p2 := w2.cur_block.push letter
      let w3 := { w2 with cur_block := p2.1 }
      match p2.2 with
      | .success => (w3, .ok ())
      | other =>
        (w3, .error (.couldNotStartNewBlock letter.char_compatibility other))
  | none => (w0, .error .nothingToPop)

/-- word.rs `HangulWordComposer::push`: delegates to the block machine and
interprets its signal. -/
def HangulWordComposer.push (w : HangulWordComposer) (letter : Jamo) :
    HangulWordComposer × Except WordError WordPushResult :=
  let p := w.cur_block.push letter
  let w0 := { w with cur_block := p.1 }
  match p.2 with
  | .success => (w0, .ok .continue)
  | .invalidHangul => (w0, .ok .invalidHangul)
  | .nonHangul => (w0, .ok .nonHangul)
  | .startNewBlockNoPop =>
    match w0.start_new_block letter with
    | (w1, .ok ()) => (w1, .ok .continue)
    | (w1, .error e) => (w1, .error e)
  | .popAndStartNewBlock =>
    match w0.pop_and_start_new_block letter with
    | (w1, .ok ()) => (w1, .ok .continue)
    | (w1, .error e) => (w1, .error e)

/-- word.rs `HangulWordComposer::push_char`: classifies then pushes. -/
def HangulWordComposer.push_char (w : HangulWordComposer) (c : Nat) :
    HangulWordComposer × Except WordError WordPushResult :=
  match Character.from_char c with
  | .error e => (w, .error (.jamoError e))
  | .ok (.hangul jamo) => w.push jamo
  | .ok (.nonHangul _) => (w, .ok .nonHangul)

/-- word.rs `HangulWordComposer::prev_block_to_cur`: reopens the last
sealed block (if any) as the current block. -/
def HangulWordComposer.prev_block_to_cur (w : HangulWordComposer) :
    HangulWordComposer × Except WordError Unit :=
  match w.prev_blocks.getLast? with
  | some last_block =>
    let w1 := { w with prev_blocks := w.prev_blocks.dropLast }
    match BlockComposer.from_composed_block last_block with
    | .ok cb => ({ w1 with cur_block := cb }, .ok ())
    | .error e => (w1, .error (.blockError e))
  | none => (w, .ok ())

/-- word.rs `HangulWordComposer::pop`: pops from the current block; on
emptiness reopens the previous sealed block. -/
def HangulWordComposer.pop (w : HangulWordComposer) :
    HangulWordComposer × Except WordError (Option Jamo) :=
  let q := w.cur_block.pop
  let w0 := { w with cur_block := q.1 }
  match q.2 with
  | .poppedAndNonEmpty l => (w0, .ok (some l))
  | .poppedAndEmpty l =>
    match w0.prev_block_to_cur with
    | (w1, .ok ()) => (w1, .ok (some l))
    | (w1, .error e) => (w1, .error e)
  | .none =>
    match w0.prev_block_to_cur with
    | (w1, .ok ()) => (w1, .ok none)
    | (w1, .error e) => (w1, .error e)

/-- word.rs `HangulWordComposer::as_string`: sealed blocks plus the display
character of the current block. -/
def HangulWordComposer.as_string (w : HangulWordComposer) :
    Except WordError (List Nat) :=
  match hangul_blocks_vec_to_string w.prev_blocks with
  | .error e => .error (.blockError e)
  | .ok result =>
    match w.cur_block.block_as_string with
    | .error e => .error (.blockError e)
    | .ok (some c) => .ok (result ++ [c])
    | .ok none => .ok result

/-! string.rs: the top-level string composer. -/

/-- string.rs `StringError`. -/
inductive StringError where
  | wordError (e : WordError)
deriving DecidableEq

/-- string.rs `StringComposer`: finished text plus the active word. -/
structure StringComposer where
  completed : List Nat
  current : HangulWordComposer
deriving DecidableEq

/-- string.rs `StringComposer::new`. -/
def StringComposer.new : StringComposer :=
  ⟨[], HangulWordComposer.new⟩

/-- string.rs `StringComposer::handle_invalid_input`: flushes the active
word into the finished text, appends the raw character, resets the word. -/
def StringComposer.handle_invalid_input (s : StringComposer) (c : Nat) :
    StringComposer × Except StringError Unit :=
  match s.current.as_string with
  | .error e => (s, .error (.wordError e))
  | .ok current_string =>
    ({ completed := s.completed ++ current_string ++ [c],
        current := HangulWordComposer.new }, .ok ())

/-- string.rs `StringComposer::push_char`. -/
def StringComposer.push_char (s : StringComposer) (c : Nat) :
    StringComposer × Except StringError Unit :=
  let p := s.current.push_char c
  let s0 := { s with current := p.1 }
  match p.2 with
  | .error e => (s0, .error (.wordError e))
  | .ok .continue => (s0, .ok ())
  | .ok _ => s0.handle_invalid_input c

/-- string.rs `StringComposer::as_string`. -/
def StringComposer.as_string (s : StringComposer) :
    Except StringError (List Nat) :=
  match s.current.as_string with
  | .error e => .error (.wordError e)
  | .ok current_string => .ok (s.completed ++ current_string)

/-- string.rs `StringComposer::pop`: pops a jamo from the active word
first, else the last character of the finished text. -/
def StringComposer.pop (s : StringComposer) :
    StringComposer × Except StringError (Option Nat) :=
  let q := s.current.pop
  let s0 := { s with current := q.1 }
  match q.2 with
  | .error e => (s0, .error (.wordError e))
  | .ok (some c) => (s0, .ok (c.char_modern c.surface_position))
  | .ok none =>
    match s0.completed.getLast? with
    | some c =>
      ({ s0 with completed := s0.completed.dropLast }, .ok (some c))
    | none => (s0, .ok none)

/-! ### Auxiliary definitions used by the verification statements. -/

/-- A jamo acceptable as the initial of a complete block: a singular
consonant, or a composite consonant valid in initial position. -/
def validInitialJamo : Jamo → Bool
  | .consonant _ => true
  | .compositeConsonant c => c.is_valid_initial
  | _ => false

/-- A jamo acceptable as the vowel of a block. -/
def validVowelJamo : Jamo → Bool
  | .vowel _ => true
  | .compositeVowel _ => true
  | _ => false

/-- A jamo acceptable as the final of a block: a singular consonant, or a
composite consonant valid in final position. -/
def validFinalJamo : Jamo → Bool
  | .consonant _ => true
  | .compositeConsonant c => c.is_valid_final
  | _ => false

/-- A complete block whose components all have modern codepoints in the
positions the block uses them. -/
def validBlock (b : HangulBlock) : Bool :=
  validInitialJamo b.initial && validVowelJamo b.vowel &&
    (match b.final_optional with
      | some f => validFinalJamo f
      | none => true)

/-- A singular (non-composite) jamo: stored in exactly one slot by a
successful push. -/
def isSingularJamo : Jamo → Bool
  | .consonant _ => true
  | .vowel _ => true
  | _ => false

/-- The occupied storage slots of a composer, in insertion order. -/
def slotList (b : BlockComposer) : List Jamo :=
  [b.initial_first, b.initial_second, b.vowel_first, b.vowel_second,
    b.final_first, b.final_second].filterMap id

/-- Slot well-formedness for composers reachable by singular pushes: each
slot holds a jamo of the category the slot is for, and the machine state
agrees with which slots are occupied. -/
def wfB (b : BlockComposer) : Bool :=
  (match b.initial_first with
    | none => true
    | some (.consonant _) => true
    | _ => false) &&
  (match b.initial_second with
    | none => true
    | some (.consonant _) => true
    | _ => false) &&
  (match b.vowel_first with
    | none => true
    | some (.vowel _) => true
    | _ => false) &&
  (match b.vowel_second with
    | none => true
    | some (.vowel _) => true
    | _ => false) &&
  (match b.final_first with
    | none => true
    | some (.consonant _) => true
    | _ => false) &&
  (match b.final_second with
    | none => true
    | some (.consonant _) => true
    | _ => false) &&
  (match b.state with
    | .expectingInitial =>
      b.initial_first.isNone && b.initial_second.isNone &&
        b.vowel_first.isNone && b.vowel_second.isNone &&
        b.final_first.isNone && b.final_second.isNone
    | .expectingDoubleInitialOrVowel =>
      b.initial_first.isSome && b.initial_second.isNone &&
        b.vowel_first.isNone && b.vowel_second.isNone &&
        b.final_first.isNone && b.final_second.isNone
    | .expectingVowel =>
      b.initial_first.isSome && b.vowel_first.isNone &&
        b.vowel_second.isNone && b.final_first.isNone &&
        b.final_second.isNone
    | .expectingCompositeVowelOrFinal =>
      b.initial_first.isSome && b.vowel_first.isSome &&
        b.vowel_second.isNone && b.final_first.isNone &&
        b.final_second.isNone
    | .expectingFinal =>
      b.initial_first.isSome && b.vowel_first.isSome &&
        b.vowel_second.isSome && b.final_first.isNone &&
        b.final_second.isNone
    | .expectingCompositeFinal =>
      b.initial_first.isSome && b.vowel_first.isSome &&
        b.final_first.isSome && b.final_second.isNone
    | .expectingNextBlock =>
      b.initial_first.isSome && b.vowel_first.isSome &&
        b.final_first.isSome && b.final_second.isSome)

/-- Pushes a list of jamo in order; `some` iff every push reported
`Success`. -/
def pushAll (b : BlockComposer) : List Jamo → Option BlockComposer
  | [] => some b
  | j :: js =>
    match b.push j with
    | (b2, .success) => pushAll b2 js
    | _ => none

/-- The jamo carried by a pop status, if any. -/
def popStatusJamo : BlockPopStatus → Option Jamo
  | .poppedAndNonEmpty j => some j
  | .poppedAndEmpty j => some j
  | .none => none

/-- Performs `n` pops, returning the final composer and the jamo returned
by the pops, in pop order. -/
def popN : BlockComposer → Nat → BlockComposer × List Jamo
  | b, 0 => (b, [])
  | b, n + 1 =>
    let q := b.pop
    let r := popN q.1 n
    match popStatusJamo q.2 with
    | some j => (r.1, j :: r.2)
    | none => (r.1, r.2)

/-- Pushes a list of jamo through the word composer, keeping the state. -/
def wordPushFold (w : HangulWordComposer) (js : List Jamo) :
    HangulWordComposer :=
  js.foldl (fun w j => (w.push j).1) w

/-- Well-formedness of a composer reachable from `new` by successful
singular pushes: each slot holds a jamo of its category and the machine
state matches the occupied slots. -/
def wfP (b : BlockComposer) : Prop :=
  match b.state with
  | .expectingInitial =>
    b.initial_first = none ∧ b.initial_second = none ∧
      b.vowel_first = none ∧ b.vowel_second = none ∧
      b.final_first = none ∧ b.final_second = none
  | .expectingDoubleInitialOrVowel =>
    (∃ x, b.initial_first = some (.consonant x)) ∧
      b.initial_second = none ∧ b.vowel_first = none ∧
      b.vowel_second = none ∧ b.final_first = none ∧ b.final_second = none
  | .expectingVowel =>
    (∃ x, b.initial_first = some (.consonant x)) ∧
      (b.initial_second = none ∨
        ∃ x, b.initial_second = some (.consonant x)) ∧
      b.vowel_first = none ∧ b.vowel_second = none ∧
      b.final_first = none ∧ b.final_second = none
  | .expectingCompositeVowelOrFinal =>
    (∃ x, b.initial_first = some (.consonant x)) ∧
      (b.initial_second = none ∨
        ∃ x, b.initial_second = some (.consonant x)) ∧
      (∃ x, b.vowel_first = some (.vowel x)) ∧
      b.vowel_second = none ∧ b.final_first = none ∧ b.final_second = none
  | .expectingFinal =>
    (∃ x, b.initial_first = some (.consonant x)) ∧
      (b.initial_second = none ∨
        ∃ x, b.initial_second = some (.consonant x)) ∧
      (∃ x, b.vowel_first = some (.vowel x)) ∧
      (∃ x, b.vowel_second = some (.vowel x)) ∧
      b.final_first = none ∧ b.final_second = none
  | .expectingCompositeFinal =>
    (∃ x, b.initial_first = some (.consonant x)) ∧
      (b.initial_second = none ∨
        ∃ x, b.initial_second = some (.consonant x)) ∧
      (∃ x, b.vowel_first = some (.vowel x)) ∧
      (b.vowel_second = none ∨ ∃ x, b.vowel_second = some (.vowel x)) ∧
      (∃ x, b.final_first = some (.consonant x)) ∧ b.final_second = none
  | .expectingNextBlock =>
    (∃ x, b.initial_first = some (.consonant x)) ∧
      (b.initial_second = none ∨
        ∃ x, b.initial_second = some (.consonant x)) ∧
      (∃ x, b.vowel_first = some (.vowel x)) ∧
      (b.vowel_second = none ∨ ∃ x, b.vowel_second = some (.vowel x)) ∧
      (∃ x, b.final_first = some (.consonant x)) ∧
      (∃ x, b.final_second = some (.consonant x))


/-! ### Helper lemmas shared between the claims. -/

/-- A block push either reports `Success` or leaves the composer
unchanged: every non-mutating branch of the seven `try_push` functions
returns the composer as it was. -/
theorem blockPush_success_or_unchanged (b : BlockComposer) (j : Jamo) :
    (b.push j).2 = BlockPushResult.success ∨ (b.push j).1 = b := by
  obtain ⟨st, i1, i2, v1, v2, f1, f2⟩ := b
  cases st <;> cases j <;>
    simp only [BlockComposer.push, BlockComposer.try_push_initial,
      BlockComposer.try_push_double_initial_or_vowel,
      BlockComposer.try_push_vowel,
      BlockComposer.try_push_composite_vowel_or_final,
      BlockComposer.try_push_final, BlockComposer.try_push_composite_final,
      BlockComposer.try_push_next_block] <;>
    (try split) <;> (try split) <;> simp

/-- A push that does not report `Success` leaves the composer unchanged. -/
theorem blockPush_not_success_unchanged (b : BlockComposer) (j : Jamo)
    (h : (b.push j).2 ≠ BlockPushResult.success) : (b.push j).1 = b := by
  rcases blockPush_success_or_unchanged b j with h1 | h1
  · exact absurd h1 h
  · exact h1

/-- A `PopAndStartNewBlock` signal can only arise in the two final-bearing
states, and only for a vowel or composite-vowel letter. -/
theorem blockPush_popAndStart_cases (b : BlockComposer) (j : Jamo)
    (h : (b.push j).2 = BlockPushResult.popAndStartNewBlock) :
    (b.state = BlockCompositionState.expectingCompositeFinal ∨
      b.state = BlockCompositionState.expectingNextBlock) ∧
    ((∃ v, j = Jamo.vowel v) ∨ (∃ v, j = Jamo.compositeVowel v)) := by
  obtain ⟨st, i1, i2, v1, v2, f1, f2⟩ := b
  cases st <;> cases j <;>
    simp only [BlockComposer.push, BlockComposer.try_push_initial,
      BlockComposer.try_push_double_initial_or_vowel,
      BlockComposer.try_push_vowel,
      BlockComposer.try_push_composite_vowel_or_final,
      BlockComposer.try_push_final, BlockComposer.try_push_composite_final,
      BlockComposer.try_push_next_block] at h ⊢ <;>
    (try split at h) <;> (try split at h) <;> simp_all

/-- `decomposed_tuple` never fails. -/
theorem decomposed_tuple_ok (b : HangulBlock) :
    ∃ t, b.decomposed_tuple = Except.ok t :=
  ⟨_, rfl⟩

/-- `from_composed_block` never fails. -/
theorem from_composed_block_ok (b : HangulBlock) :
    ∃ cb, BlockComposer.from_composed_block b = Except.ok cb :=
  ⟨_, rfl⟩

/-- `charFromU32` is the identity on codepoints below the surrogate
range. -/
theorem charFromU32_small {n : Nat} (h : n < 0xD800) :
    charFromU32 n = some n := by
  unfold charFromU32
  rw [if_pos (Or.inl h)]

/-- Every valid block initial has a modern initial codepoint in the L
range, and `from_modern_jamo` maps it back to the jamo. -/
theorem initial_char_spec (j : Jamo) (h : validInitialJamo j = true) :
    ∃ c, j.char_modern .initial = some c ∧ L_BASE ≤ c ∧ c ≤ 0x1112 ∧
      Jamo.from_modern_jamo c = Except.ok j := by
  rcases j with c | c | c | c <;> cases c <;>
    first
    | exact absurd h (by decide)
    | exact ⟨_, rfl, by decide, by decide, by decide⟩

/-- Every vowel jamo has a modern codepoint in the V range, and
`from_modern_jamo` maps it back to the jamo. -/
theorem vowel_char_spec (j : Jamo) (h : validVowelJamo j = true) :
    ∃ c, j.char_modern .vowel = some c ∧ V_BASE ≤ c ∧ c ≤ 0x1175 ∧
      Jamo.from_modern_jamo c = Except.ok j := by
  rcases j with c | c | c | c <;> cases c <;>
    first
    | exact absurd h (by decide)
    | exact ⟨_, rfl, by decide, by decide, by decide⟩

/-- Every valid block final has a modern final codepoint in the T range,
and `from_modern_jamo` maps it back to the jamo. -/
theorem final_char_spec (j : Jamo) (h : validFinalJamo j = true) :
    ∃ c, j.char_modern .final = some c ∧ 0x11A8 ≤ c ∧ c ≤ 0x11C2 ∧
      Jamo.from_modern_jamo c = Except.ok j := by
  rcases j with c | c | c | c <;> cases c <;>
    first
    | exact absurd h (by decide)
    | exact ⟨_, rfl, by decide, by decide, by decide⟩

/-- Decoding a syllable codepoint with in-range L and V indices and no
final part recovers the component jamo. -/
theorem from_char_decode_noFinal (ci cv : Nat) (hi1 : 4352 ≤ ci)
    (hi2 : ci ≤ 4370) (hv1 : 4449 ≤ cv) (hv2 : cv ≤ 4469) (bi bv : Jamo)
    (hi3 : Jamo.from_modern_jamo ci = Except.ok bi)
    (hv3 : Jamo.from_modern_jamo cv = Except.ok bv) :
    HangulBlock.from_char (44032 + ((ci - 4352) * 588 + (cv - 4449) * 28)) =
      Except.ok ⟨bi, bv, none⟩ := by
  unfold HangulBlock.from_char
  rw [if_neg (by simp only [S_BASE, S_COUNT]; omega)]
  simp only []
  rw [show 44032 + ((ci - 4352) * 588 + (cv - 4449) * 28) - S_BASE =
      (ci - 4352) * 588 + (cv - 4449) * 28 from by
    simp only [S_BASE]; omega]
  rw [show ((ci - 4352) * 588 + (cv - 4449) * 28) / N_COUNT = ci - 4352
      from by simp only [N_COUNT, V_COUNT, T_COUNT]; omega]
  rw [show ((ci - 4352) * 588 + (cv - 4449) * 28) % N_COUNT / T_COUNT =
      cv - 4449 from by simp only [N_COUNT, V_COUNT, T_COUNT]; omega]
  rw [show ((ci - 4352) * 588 + (cv - 4449) * 28) % T_COUNT = 0 from by
    simp only [T_COUNT]; omega]
  rw [show L_BASE + (ci - 4352) = ci from by simp only [L_BASE]; omega]
  rw [charFromU32_small (by omega)]
  simp only []
  rw [hi3]
  simp only []
  rw [show V_BASE + (cv - 4449) = cv from by simp only [V_BASE]; omega]
  rw [charFromU32_small (by omega)]
  simp only []
  rw [hv3]
  simp

/-- Decoding a syllable codepoint with in-range L, V and T indices
recovers the component jamo including the final. -/
theorem from_char_decode_final (ci cv cf : Nat) (hi1 : 4352 ≤ ci)
    (hi2 : ci ≤ 4370) (hv1 : 4449 ≤ cv) (hv2 : cv ≤ 4469)
    (hf1 : 4520 ≤ cf) (hf2 : cf ≤ 4546) (bi bv bf : Jamo)
    (hi3 : Jamo.from_modern_jamo ci = Except.ok bi)
    (hv3 : Jamo.from_modern_jamo cv = Except.ok bv)
    (hf3 : Jamo.from_modern_jamo cf = Except.ok bf) :
    HangulBlock.from_char
        (44032 + ((ci - 4352) * 588 + (cv - 4449) * 28 + (cf - 4519))) =
      Except.ok ⟨bi, bv, some bf⟩ := by
  unfold HangulBlock.from_char
  rw [if_neg (by simp only [S_BASE, S_COUNT]; omega)]
  simp only []
  rw [show 44032 + ((ci - 4352) * 588 + (cv - 4449) * 28 + (cf - 4519)) -
      S_BASE = (ci - 4352) * 588 + (cv - 4449) * 28 + (cf - 4519) from by
    simp only [S_BASE]; omega]
  rw [show ((ci - 4352) * 588 + (cv - 4449) * 28 + (cf - 4519)) / N_COUNT =
      ci - 4352 from by simp only [N_COUNT, V_COUNT, T_COUNT]; omega]
  rw [show ((ci - 4352) * 588 + (cv - 4449) * 28 + (cf - 4519)) % N_COUNT /
      T_COUNT = cv - 4449 from by
    simp only [N_COUNT, V_COUNT, T_COUNT]; omega]
  rw [show ((ci - 4352) * 588 + (cv - 4449) * 28 + (cf - 4519)) % T_COUNT =
      cf - 4519 from by simp only [T_COUNT]; omega]
  rw [show L_BASE + (ci - 4352) = ci from by simp only [L_BASE]; omega]
  rw [charFromU32_small (by omega)]
  simp only []
  rw [hi3]
  simp only []
  rw [show V_BASE + (cv - 4449) = cv from by simp only [V_BASE]; omega]
  rw [charFromU32_small (by omega)]
  simp only []
  rw [hv3]
  simp only []
  rw [if_pos (by omega)]
  rw [show T_BASE + (cf - 4519) = cf from by simp only [T_BASE]; omega]
  rw [charFromU32_small (by omega)]
  simp only []
  rw [hf3]

/-- Encoding a final-less block whose components have in-range modern
codepoints yields the L/V syllable codepoint. -/
theorem to_char_encode_noFinal (b : HangulBlock) (ci cv : Nat)
    (hci : b.initial.char_modern .initial = some ci)
    (hcv : b.vowel.char_modern .vowel = some cv)
    (hfo : b.final_optional = none)
    (hi1 : 4352 ≤ ci) (hi2 : ci ≤ 4370)
    (hv1 : 4449 ≤ cv) (hv2 : cv ≤ 4469) :
    b.to_char =
      Except.ok (44032 + ((ci - 4352) * 588 + (cv - 4449) * 28)) := by
  unfold HangulBlock.to_char
  rw [hci, hcv, hfo]
  simp only [L_BASE, V_BASE, T_BASE, N_COUNT, V_COUNT, T_COUNT, S_BASE]
  norm_num
  rw [charFromU32_small (by omega)]

/-- Encoding a block with a final whose components have in-range modern
codepoints yields the L/V/T syllable codepoint. -/
theorem to_char_encode_final (b : HangulBlock) (f : Jamo) (ci cv cf : Nat)
    (hci : b.initial.char_modern .initial = some ci)
    (hcv : b.vowel.char_modern .vowel = some cv)
    (hfo : b.final_optional = some f)
    (hcf : f.char_modern .final = some cf)
    (hi1 : 4352 ≤ ci) (hi2 : ci ≤ 4370)
    (hv1 : 4449 ≤ cv) (hv2 : cv ≤ 4469)
    (hf1 : 4520 ≤ cf) (hf2 : cf ≤ 4546) :
    b.to_char = Except.ok
      (44032 + ((ci - 4352) * 588 + (cv - 4449) * 28 + (cf - 4519))) := by
  unfold HangulBlock.to_char
  rw [hci, hcv, hfo]
  simp only [L_BASE, V_BASE, T_BASE, N_COUNT, V_COUNT, T_COUNT, S_BASE]
  rw [hcf]
  simp only []
  rw [if_neg (by omega)]
  rw [charFromU32_small (by omega)]

/-- The slot list of a composer with an occupied first-initial slot is
nonempty. -/
theorem slotList_ne_nil_of_i1 (b : BlockComposer)
    (h : b.initial_first.isSome = true) : slotList b ≠ [] := by
  obtain ⟨st, i1, i2, v1, v2, f1, f2⟩ := b
  cases i1 <;> simp_all [slotList]

/-- One pop removes exactly the last occupied slot, returns its jamo, and
preserves the first-initial slot unless it was the only occupied one, in
which case the composer becomes the fresh empty composer. -/
theorem pop_step (b : BlockComposer)
    (h1 : b.initial_first.isSome = true) :
    popStatusJamo (b.pop).2 = (slotList b).getLast? ∧
    slotList (b.pop).1 = (slotList b).dropLast ∧
    ((1 < (slotList b).length ∧
        (b.pop).1.initial_first = b.initial_first) ∨
      ((slotList b).length = 1 ∧ (b.pop).1 = BlockComposer.new)) := by
  obtain ⟨st, i1, i2, v1, v2, f1, f2⟩ := b
  cases i1 <;> cases i2 <;> cases v1 <;> cases v2 <;> cases f1 <;>
    cases f2 <;>
    simp_all [BlockComposer.pop, slotList, BlockComposer.new, popStatusJamo]

/-- A composer push step: a successful singular push preserves
well-formedness and appends the pushed jamo to the slot list. -/
theorem push_step (b b2 : BlockComposer) (j : Jamo) (hw : wfP b)
    (hs : isSingularJamo j = true)
    (hp : b.push j = (b2, BlockPushResult.success)) :
    wfP b2 ∧ slotList b2 = slotList b ++ [j] := by
  obtain ⟨st, i1, i2, v1, v2, f1, f2⟩ := b
  rcases j with c | c | c | c
  case compositeConsonant => simp [isSingularJamo] at hs
  case compositeVowel => simp [isSingularJamo] at hs
  case consonant =>
    cases st
    case expectingInitial =>
      obtain ⟨e1, e2, e3, e4, e5, e6⟩ := hw
      simp only at e1 e2 e3 e4 e5 e6
      subst e1 e2 e3 e4 e5 e6
      simp only [BlockComposer.push, BlockComposer.try_push_initial,
        Prod.mk.injEq] at hp
      obtain ⟨hb2, -⟩ := hp
      subst hb2
      exact ⟨by simp [wfP], by simp [slotList]⟩
    case expectingDoubleInitialOrVowel =>
      obtain ⟨⟨x, e1⟩, e2, e3, e4, e5, e6⟩ := hw
      simp only at e1 e2 e3 e4 e5 e6
      subst e1 e2 e3 e4 e5 e6
      simp only [BlockComposer.push,
        BlockComposer.try_push_double_initial_or_vowel] at hp
      split at hp <;> simp only [Prod.mk.injEq] at hp
      · obtain ⟨hb2, -⟩ := hp
        subst hb2
        exact ⟨by simp [wfP], by simp [slotList]⟩
      · exact absurd hp.2 (by simp)
    case expectingVowel =>
      obtain ⟨⟨x, e1⟩, e2, e3, e4, e5, e6⟩ := hw
      simp only at e1 e3 e4 e5 e6
      subst e1 e3 e4 e5 e6
      simp only [BlockComposer.push, BlockComposer.try_push_vowel,
        Prod.mk.injEq] at hp
      exact absurd hp.2 (by simp)
    case expectingCompositeVowelOrFinal =>
      obtain ⟨⟨x, e1⟩, e2, ⟨y, e3⟩, e4, e5, e6⟩ := hw
      simp only at e1 e3 e4 e5 e6
      subst e1 e3 e4 e5 e6
      simp only [BlockComposer.push,
        BlockComposer.try_push_composite_vowel_or_final,
        Prod.mk.injEq] at hp
      obtain ⟨hb2, -⟩ := hp
      subst hb2
      rcases e2 with e2 | ⟨z, e2⟩ <;>
        (simp only at e2; subst e2;
          exact ⟨by simp [wfP], by simp [slotList]⟩)
    case expectingFinal =>
      obtain ⟨⟨x, e1⟩, e2, ⟨y, e3⟩, ⟨y2, e4⟩, e5, e6⟩ := hw
      simp only at e1 e3 e4 e5 e6
      subst e1 e3 e4 e5 e6
      simp only [BlockComposer.push, BlockComposer.try_push_final,
        Prod.mk.injEq] at hp
      obtain ⟨hb2, -⟩ := hp
      subst hb2
      rcases e2 with e2 | ⟨z, e2⟩ <;>
        (simp only at e2; subst e2;
          exact ⟨by simp [wfP], by simp [slotList]⟩)
    case expectingCompositeFinal =>
      obtain ⟨⟨x, e1⟩, e2, ⟨y, e3⟩, e4, ⟨w, e5⟩, e6⟩ := hw
      simp only at e1 e3 e5 e6
      subst e1 e3 e5 e6
      simp only [BlockComposer.push,
        BlockComposer.try_push_composite_final] at hp
      split at hp <;> simp only [Prod.mk.injEq] at hp
      · obtain ⟨hb2, -⟩ := hp
        subst hb2
        rcases e2 with e2 | ⟨z, e2⟩ <;> rcases e4 with e4 | ⟨z2, e4⟩ <;>
          (simp only at e2 e4; subst e2 e4;
            exact ⟨by simp [wfP], by simp [slotList]⟩)
      · exact absurd hp.2 (by simp)
    case expectingNextBlock =>
      obtain ⟨⟨x, e1⟩, e2, ⟨y, e3⟩, e4, ⟨w, e5⟩, ⟨w2, e6⟩⟩ := hw
      simp only [BlockComposer.push, BlockComposer.try_push_next_block,
        Prod.mk.injEq] at hp
      exact absurd hp.2 (by simp)
  case vowel =>
    cases st
    case expectingInitial =>
      obtain ⟨e1, e2, e3, e4, e5, e6⟩ := hw
      simp only [BlockComposer.push, BlockComposer.try_push_initial,
        Prod.mk.injEq] at hp
      exact absurd hp.2 (by simp)
    case expectingDoubleInitialOrVowel =>
      obtain ⟨⟨x, e1⟩, e2, e3, e4, e5, e6⟩ := hw
      simp only at e1 e2 e3 e4 e5 e6
      subst e1 e2 e3 e4 e5 e6
      simp only [BlockComposer.push,
        BlockComposer.try_push_double_initial_or_vowel,
        Prod.mk.injEq] at hp
      obtain ⟨hb2, -⟩ := hp
      subst hb2
      exact ⟨by simp [wfP], by simp [slotList]⟩
    case expectingVowel =>
      obtain ⟨⟨x, e1⟩, e2, e3, e4, e5, e6⟩ := hw
      simp only at e1 e3 e4 e5 e6
      subst e1 e3 e4 e5 e6
      simp only [BlockComposer.push, BlockComposer.try_push_vowel,
        Prod.mk.injEq] at hp
      obtain ⟨hb2, -⟩ := hp
      subst hb2
      rcases e2 with e2 | ⟨z, e2⟩ <;>
        (simp only at e2; subst e2;
          exact ⟨by simp [wfP], by simp [slotList]⟩)
    case expectingCompositeVowelOrFinal =>
      obtain ⟨⟨x, e1⟩, e2, ⟨y, e3⟩, e4, e5, e6⟩ := hw
      simp only at e1 e3 e4 e5 e6
      subst e1 e3 e4 e5 e6
      simp only [BlockComposer.push,
        BlockComposer.try_push_composite_vowel_or_final] at hp
      split at hp <;> simp only [Prod.mk.injEq] at hp
      · obtain ⟨hb2, -⟩ := hp
        subst hb2
        rcases e2 with e2 | ⟨z, e2⟩ <;>
          (simp only at e2; subst e2;
            exact ⟨by simp [wfP], by simp [slotList]⟩)
      · exact absurd hp.2 (by simp)
    case expectingFinal =>
      obtain ⟨⟨x, e1⟩, e2, ⟨y, e3⟩, ⟨y2, e4⟩, e5, e6⟩ := hw
      simp only [BlockComposer.push, BlockComposer.try_push_final,
        Prod.mk.injEq] at hp
      exact absurd hp.2 (by simp)
    case expectingCompositeFinal =>
      obtain ⟨⟨x, e1⟩, e2, ⟨y, e3⟩, e4, ⟨w, e5⟩, e6⟩ := hw
      simp only [BlockComposer.push,
        BlockComposer.try_push_composite_final, Prod.mk.injEq] at hp
      exact absurd hp.2 (by simp)
    case expectingNextBlock =>
      obtain ⟨⟨x, e1⟩, e2, ⟨y, e3⟩, e4, ⟨w, e5⟩, ⟨w2, e6⟩⟩ := hw
      simp only [BlockComposer.push, BlockComposer.try_push_next_block,
        Prod.mk.injEq] at hp
      exact absurd hp.2 (by simp)

/-- Popping as many times as there are occupied slots empties the
composer back to `new` and returns the slot list in reverse. -/
theorem popN_complete : ∀ (n : Nat) (b : BlockComposer),
    (slotList b).length = n → b.initial_first.isSome = true →
    popN b n = (BlockComposer.new, (slotList b).reverse) := by
  intro n
  induction n with
  | zero =>
    intro b hlen hi
    exact absurd (List.length_eq_zero.mp hlen) (slotList_ne_nil_of_i1 b hi)
  | succ n ih =>
    intro b hlen hi
    obtain ⟨hj, hsl, hrest⟩ := pop_step b hi
    have hne : slotList b ≠ [] := slotList_ne_nil_of_i1 b hi
    have hlast : (slotList b).getLast? = some ((slotList b).getLast hne) :=
      List.getLast?_eq_getLast _ hne
    have hrev : (slotList b).reverse =
        (slotList b).getLast hne :: (slotList b).dropLast.reverse := by
      conv_lhs => rw [← List.dropLast_append_getLast hne]
      rw [List.reverse_append]
      simp
    rcases hrest with ⟨hgt, hi2⟩ | ⟨hone, hnew⟩
    · have hlen2 : (slotList (b.pop).1).length = n := by
        rw [hsl, List.length_dropLast, hlen]
        omega
      have hi2' : (b.pop).1.initial_first.isSome = true := by
        rw [hi2]; exact hi
      have := ih (b.pop).1 hlen2 hi2'
      show popN b (n + 1) = _
      rw [popN]
      simp only [this, hj, hlast]
      rw [hrev, hsl]
    · have hn0 : n = 0 := by omega
      subst hn0
      show popN b 1 = _
      rw [popN]
      simp only [popN, hj, hlast, hnew]
      rw [hrev]
      have : (slotList b).dropLast = [] := by
        have := List.length_dropLast (slotList b)
        rw [hone] at this
        simpa using List.length_eq_zero.mp (by omega)
      rw [this]
      simp

/-- Pushing a list of singular jamo with all pushes successful appends
them to the slot list and preserves well-formedness. -/
theorem pushAll_spec : ∀ (js : List Jamo) (ks : List Jamo)
    (b0 b : BlockComposer), wfP b0 → slotList b0 = ks →
    js.all isSingularJamo = true → pushAll b0 js = some b →
    wfP b ∧ slotList b = ks ++ js := by
  intro js
  induction js with
  | nil =>
    intro ks b0 b hw hsl hall hp
    simp only [pushAll, Option.some.injEq] at hp
    subst hp
    simpa using ⟨hw, hsl⟩
  | cons j js ih =>
    intro ks b0 b hw hsl hall hp
    simp only [List.all_cons, Bool.and_eq_true] at hall
    rw [pushAll] at hp
    rcases hq : b0.push j with ⟨b1, r⟩
    rw [hq] at hp
    cases r <;> simp only at hp
    case success =>
      obtain ⟨hw1, hsl1⟩ := push_step b0 b1 j hw hall.1 hq
      have := ih (ks ++ [j]) b1 b hw1 (by rw [hsl1, hsl]) hall.2 hp
      simpa using this
    all_goals exact absurd hp (by simp)

/-- The fresh composer is well-formed. -/
theorem wfP_new : wfP BlockComposer.new := by
  simp [wfP, BlockComposer.new]

/-- A well-formed composer with occupied slots has its first-initial slot
occupied. -/
theorem wfP_i1_of_ne_nil (b : BlockComposer) (hw : wfP b)
    (h : slotList b ≠ []) : b.initial_first.isSome = true := by
  obtain ⟨st, i1, i2, v1, v2, f1, f2⟩ := b
  cases st <;> simp only [wfP] at hw
  case expectingInitial =>
    obtain ⟨e1, e2, e3, e4, e5, e6⟩ := hw
    subst e1 e2 e3 e4 e5 e6
    simp [slotList] at h
  all_goals
    obtain ⟨⟨x, e1⟩, -⟩ := hw
    subst e1
    rfl


/-- A word `push_char` whose result is `ok` with a non-`Continue` outcome
leaves the word composer unchanged. -/
theorem wordPushChar_nonContinue_unchanged (w cur2 : HangulWordComposer)
    (c : Nat) (res : WordPushResult)
    (hq : w.push_char c = (cur2, Except.ok res))
    (hres : res ≠ WordPushResult.continue) : cur2 = w := by
  unfold HangulWordComposer.push_char at hq
  rcases hcc : Character.from_char c with e | ch <;> rw [hcc] at hq
  · exact absurd (congrArg Prod.snd hq) (by simp)
  · cases ch with
    | nonHangul cc =>
      simp only [Prod.mk.injEq] at hq
      exact hq.1.symm
    | hangul j =>
      simp only [] at hq
      unfold HangulWordComposer.push at hq
      rcases hp : w.cur_block.push j with ⟨cb, r⟩
      rw [hp] at hq
      have hcb : r ≠ BlockPushResult.success → cb = w.cur_block := by
        intro hr
        have := blockPush_not_success_unchanged w.cur_block j
          (by rw [hp]; simpa using hr)
        rw [hp] at this
        exact this
      cases r <;> simp only [] at hq
      case success =>
        obtain ⟨-, h2⟩ := Prod.mk.injEq .. ▸ hq
        exact absurd (by injection h2 with h; exact h.symm) hres
      case invalidHangul =>
        obtain ⟨h1, -⟩ := Prod.mk.injEq .. ▸ hq
        rw [← h1, hcb (by simp)]
      case nonHangul =>
        obtain ⟨h1, -⟩ := Prod.mk.injEq .. ▸ hq
        rw [← h1, hcb (by simp)]
      case startNewBlockNoPop =>
        rcases hs : ({ w with cur_block := cb } :
            HangulWordComposer).start_new_block j with ⟨w1, r1⟩
        rw [hs] at hq
        rcases r1 with r1 | r1
        · simp at hq
        · simp only [] at hq
          obtain ⟨-, h2⟩ := Prod.mk.injEq .. ▸ hq
          exact absurd (by injection h2 with h; exact h.symm) hres
      case popAndStartNewBlock =>
        rcases hs : ({ w with cur_block := cb } :
            HangulWordComposer).pop_and_start_new_block j with ⟨w1, r1⟩
        rw [hs] at hq
        rcases r1 with r1 | r1
        · simp at hq
        · simp only [] at hq
          obtain ⟨-, h2⟩ := Prod.mk.injEq .. ▸ hq
          exact absurd (by injection h2 with h; exact h.symm) hres

/-- A block completing as `Complete` with an empty second-final slot has
the first-final slot as the final of the completed block. -/
theorem try_complete_block_final (b2 : BlockComposer) (blk : HangulBlock)
    (hb : b2.final_second = none)
    (hc : b2.try_as_complete_block =
      Except.ok (BlockCompletionStatus.complete blk)) :
    blk.final_optional = b2.final_first := by
  unfold BlockComposer.try_as_complete_block at hc
  rw [hb] at hc
  rcases hf : b2.final_first with _ | f1 <;> rw [hf] at hc <;>
    simp only [] at hc <;>
    (repeat' split at hc) <;> simp_all <;> (subst hc; rfl)

/-- A block completing as `Empty` with an empty second-final slot has an
empty first-final slot. -/
theorem try_complete_block_empty (b2 : BlockComposer)
    (hb : b2.final_second = none)
    (hc : b2.try_as_complete_block =
      Except.ok BlockCompletionStatus.empty) :
    b2.final_first = none := by
  unfold BlockComposer.try_as_complete_block at hc
  rw [hb] at hc
  rcases hf : b2.final_first with _ | f1 <;> rw [hf] at hc <;>
    simp only [] at hc <;>
    (repeat' split at hc) <;> simp_all

/-- In the two final-bearing states with an empty first-final slot, no
push can report `Success`. -/
theorem push_no_success_of_no_f1 (b2 : BlockComposer) (l : Jamo)
    (hst : b2.state = BlockCompositionState.expectingCompositeFinal ∨
      b2.state = BlockCompositionState.expectingNextBlock)
    (hf1 : b2.final_first = none) :
    (b2.push l).2 ≠ BlockPushResult.success := by
  obtain ⟨st, i1, i2, v1, v2, f1, f2⟩ := b2
  simp only [] at hst hf1
  subst hf1
  rcases hst with rfl | rfl <;> cases l <;>
    simp only [BlockComposer.push, BlockComposer.try_push_composite_final,
      BlockComposer.try_push_next_block] <;>
    (try split) <;> simp_all

/-- In the two final-bearing states, a vowel or composite vowel always
signals `PopAndStartNewBlock`. -/
theorem push_vowelish_popAndStart (b2 : BlockComposer) (j : Jamo)
    (hst : b2.state = BlockCompositionState.expectingCompositeFinal ∨
      b2.state = BlockCompositionState.expectingNextBlock)
    (hj : (∃ v, j = Jamo.vowel v) ∨ (∃ v, j = Jamo.compositeVowel v)) :
    (b2.push j).2 = BlockPushResult.popAndStartNewBlock := by
  obtain ⟨st, i1, i2, v1, v2, f1, f2⟩ := b2
  simp only [] at hst
  rcases hj with ⟨v, rfl⟩ | ⟨v, rfl⟩ <;> rcases hst with rfl | rfl <;>
    simp [BlockComposer.push, BlockComposer.try_push_composite_final,
      BlockComposer.try_push_next_block]


/-! ### Claims -/

/-- C1: for every complete block whose initial is a valid initial
consonant, whose vowel is a singular or composite vowel, and whose
optional final is a valid final consonant, `to_char` succeeds and
`from_char` of the produced syllable codepoint returns the block itself:
the block/character conversion round-trips. -/
theorem c1_block_char_roundtrip : ∀ b : HangulBlock, validBlock b = true →
    ∃ c, b.to_char = Except.ok c ∧ HangulBlock.from_char c = Except.ok b := by
  intro b hv
  unfold validBlock at hv
  rw [Bool.and_eq_true, Bool.and_eq_true] at hv
  obtain ⟨⟨h1, h2⟩, h3⟩ := hv
  obtain ⟨ci, hci, hi1, hi2, hi3⟩ := initial_char_spec b.initial h1
  obtain ⟨cv, hcv, hv1, hv2, hv3⟩ := vowel_char_spec b.vowel h2
  simp only [L_BASE] at hi1
  simp only [V_BASE] at hv1
  rcases hfo : b.final_optional with _ | f
  case none =>
    refine ⟨44032 + ((ci - 4352) * 588 + (cv - 4449) * 28), ?_, ?_⟩
    · exact to_char_encode_noFinal b ci cv hci hcv hfo hi1 hi2 hv1 hv2
    · rw [from_char_decode_noFinal ci cv hi1 hi2 hv1 hv2 b.initial b.vowel
        hi3 hv3]
      rw [← hfo]
  case some =>
    rw [hfo] at h3
    simp only [] at h3
    obtain ⟨cf, hcf, hf1, hf2, hf3⟩ := final_char_spec f h3
    refine ⟨44032 + ((ci - 4352) * 588 + (cv - 4449) * 28 + (cf - 4519)),
      ?_, ?_⟩
    · exact to_char_encode_final b f ci cv cf hci hcv hfo hcf hi1 hi2 hv1
        hv2 hf1 hf2
    · rw [from_char_decode_final ci cv cf hi1 hi2 hv1 hv2 hf1 hf2 b.initial
        b.vowel f hi3 hv3 hf3]
      rw [← hfo]

/-- Witness for C1 at a concrete block: the block ㄱㅏㄴ (간) round-trips
through `to_char` and `from_char`. -/
theorem c1_block_char_roundtrip_witness :
    ∃ c, (HangulBlock.mk (Jamo.consonant .giyeok) (Jamo.vowel .a)
        (some (Jamo.consonant .nieun))).to_char = Except.ok c ∧
      HangulBlock.from_char c = Except.ok
        (HangulBlock.mk (Jamo.consonant .giyeok) (Jamo.vowel .a)
          (some (Jamo.consonant .nieun))) :=
  c1_block_char_roundtrip
    (HangulBlock.mk (Jamo.consonant .giyeok) (Jamo.vowel .a)
      (some (Jamo.consonant .nieun))) (by decide)

/-- C3: for every composite jamo, the relevant combine function applied to
its decomposition returns it (`combine_for_initial` for initial-valid
composite consonants, `combine_for_final` for final-valid ones, `combine`
for composite vowels; every composite consonant is valid in at least one
role), and conversely whenever a combine function succeeds, `decompose` of
the result gives back exactly the combined pair: the combination and
decomposition tables are exact inverses. -/
theorem c3_combine_decompose_inverse :
    (∀ c : JamoConsonantComposite,
      (c.is_valid_initial = true →
        ∃ x y, c.decompose = (Jamo.consonant x, Jamo.consonant y) ∧
          x.combine_for_initial y = some c) ∧
      (c.is_valid_final = true →
        ∃ x y, c.decompose = (Jamo.consonant x, Jamo.consonant y) ∧
          x.combine_for_final y = some c) ∧
      (c.is_valid_initial = true ∨ c.is_valid_final = true)) ∧
    (∀ v : JamoVowelComposite,
      ∃ x y, v.decompose = (Jamo.vowel x, Jamo.vowel y) ∧
        x.combine y = some v) ∧
    (∀ x y c, JamoConsonantSingular.combine_for_initial x y = some c →
      c.decompose = (Jamo.consonant x, Jamo.consonant y)) ∧
    (∀ x y c, JamoConsonantSingular.combine_for_final x y = some c →
      c.decompose = (Jamo.consonant x, Jamo.consonant y)) ∧
    (∀ x y v, JamoVowelSingular.combine x y = some v →
      v.decompose = (Jamo.vowel x, Jamo.vowel y)) := by decide

/-- Witness for C3 at concrete inputs: the composite ㄶ decomposes to
(ㄴ, ㅎ) and `combine_for_final` recombines them, and `combine_for_final`
of (ㄴ, ㅎ) decomposes back to the pair. -/
theorem c3_combine_decompose_inverse_witness :
    (∃ x y,
      JamoConsonantComposite.nieunHieut.decompose =
        (Jamo.consonant x, Jamo.consonant y) ∧
      x.combine_for_final y = some JamoConsonantComposite.nieunHieut) ∧
    JamoConsonantComposite.nieunHieut.decompose =
      (Jamo.consonant JamoConsonantSingular.nieun,
        Jamo.consonant JamoConsonantSingular.hieut) :=
  ⟨(c3_combine_decompose_inverse.1 JamoConsonantComposite.nieunHieut).2.1
      (by decide),
    c3_combine_decompose_inverse.2.2.2.1 JamoConsonantSingular.nieun
      JamoConsonantSingular.hieut JamoConsonantComposite.nieunHieut
      (by decide)⟩

/-- C5: a push that reports `InvalidHangul` leaves the composer entirely
unchanged — state and all six storage slots; in particular pushing ㄱ then
ㄹ into a fresh composer reports `InvalidHangul` on the second push with
the composer still in `ExpectingDoubleInitialOrVowel` and ㄱ the sole
stored jamo. -/
theorem c5_invalid_push_unchanged :
    (∀ (b : BlockComposer) (j : Jamo),
      (b.push j).2 = BlockPushResult.invalidHangul → (b.push j).1 = b) ∧
    (BlockComposer.new.push (Jamo.consonant .giyeok) =
      (⟨.expectingDoubleInitialOrVowel, some (Jamo.consonant .giyeok),
          none, none, none, none, none⟩, .success) ∧
      (⟨.expectingDoubleInitialOrVowel, some (Jamo.consonant .giyeok),
          none, none, none, none, none⟩ : BlockComposer).push
          (Jamo.consonant .rieul) =
        (⟨.expectingDoubleInitialOrVowel, some (Jamo.consonant .giyeok),
            none, none, none, none, none⟩, .invalidHangul)) := by
  constructor
  · intro b j h
    exact blockPush_not_success_unchanged b j (by rw [h]; simp)
  · constructor <;> rfl

/-- Witness for C5 applying the universal part at the scenario input:
pushing ㄹ after ㄱ leaves the composer unchanged. -/
theorem c5_invalid_push_unchanged_witness :
    ((⟨.expectingDoubleInitialOrVowel, some (Jamo.consonant .giyeok),
        none, none, none, none, none⟩ : BlockComposer).push
        (Jamo.consonant .rieul)).1 =
      ⟨.expectingDoubleInitialOrVowel, some (Jamo.consonant .giyeok),
        none, none, none, none, none⟩ :=
  c5_invalid_push_unchanged.1
    ⟨.expectingDoubleInitialOrVowel, some (Jamo.consonant .giyeok),
      none, none, none, none, none⟩
    (Jamo.consonant .rieul) (by decide)

/-- Counterexample to C9 as stated: `combine_for_final` succeeds on 13
pairs of singular consonants, not 11. -/
theorem c9_counterexample :
    (Finset.univ.filter
      (fun p : JamoConsonantSingular × JamoConsonantSingular =>
        (p.1.combine_for_final p.2).isSome)).card = 13 ∧
    ¬ (Finset.univ.filter
      (fun p : JamoConsonantSingular × JamoConsonantSingular =>
        (p.1.combine_for_final p.2).isSome)).card = 11 := by decide

/-- C9 amended: `combine_for_final` returns `Some` exactly for 13 pairs —
the 11 cluster pairs legal only word-finally plus the two geminates ㄱㄱ
and ㅅㅅ — and `None` for every other pair; each result is a composite
for which `is_valid_final` holds. -/
theorem c9_amended_final_table :
    (∀ x y : JamoConsonantSingular,
      (x.combine_for_final y).isSome = true ↔
        (x, y) ∈ ([(JamoConsonantSingular.giyeok, JamoConsonantSingular.siot),
          (.nieun, .jieut), (.nieun, .hieut), (.rieul, .giyeok),
          (.rieul, .mieum), (.rieul, .bieup), (.rieul, .siot),
          (.rieul, .tieut), (.rieul, .pieup), (.rieul, .hieut),
          (.giyeok, .giyeok), (.siot, .siot), (.bieup, .siot)] :
          List (JamoConsonantSingular × JamoConsonantSingular))) ∧
    (∀ x y c, JamoConsonantSingular.combine_for_final x y = some c →
      c.is_valid_final = true) := by decide

/-- Witness for C9 amended at a concrete input: the geminate pair ㄱㄱ is
accepted by `combine_for_final` and yields a valid final. -/
theorem c9_amended_final_table_witness :
    (JamoConsonantSingular.giyeok.combine_for_final
        JamoConsonantSingular.giyeok).isSome = true ∧
    JamoConsonantComposite.ssangGiyeok.is_valid_final = true :=
  ⟨(c9_amended_final_table.1 JamoConsonantSingular.giyeok
      JamoConsonantSingular.giyeok).2 (by decide),
    c9_amended_final_table.2 JamoConsonantSingular.giyeok
      JamoConsonantSingular.giyeok JamoConsonantComposite.ssangGiyeok
      (by decide)⟩

/-- Counterexample to C2 as stated: pushing the two jamo ㄱ and the
composite vowel ㅘ both reports `Success`, but two pops return the two
decomposed singular vowels ㅏ, ㅗ — not the pushed jamo in reverse order —
and the composer is not empty afterwards. -/
theorem c2_counterexample :
    pushAll BlockComposer.new
        [Jamo.consonant .giyeok, Jamo.compositeVowel .wa] =
      some ⟨.expectingFinal, some (Jamo.consonant .giyeok), none,
        some (Jamo.vowel .o), some (Jamo.vowel .a), none, none⟩ ∧
    popN (⟨.expectingFinal, some (Jamo.consonant .giyeok), none,
        some (Jamo.vowel .o), some (Jamo.vowel .a), none, none⟩ :
        BlockComposer) 2 =
      (⟨.expectingDoubleInitialOrVowel, some (Jamo.consonant .giyeok),
          none, none, none, none, none⟩,
        [Jamo.vowel .a, Jamo.vowel .o]) ∧
    ([Jamo.vowel .a, Jamo.vowel .o] ≠
      [Jamo.compositeVowel .wa, Jamo.consonant .giyeok]) ∧
    (⟨.expectingDoubleInitialOrVowel, some (Jamo.consonant .giyeok),
      none, none, none, none, none⟩ : BlockComposer) ≠
      BlockComposer.new := by decide

/-- C2 amended: for every sequence of singular jamo (singular consonants
and singular vowels) each of whose pushes into a fresh composer returns
`Success`, performing as many pops afterwards returns exactly those jamo
in exact reverse order and leaves the composer equal to a fresh empty
composer. -/
theorem c2_singular_push_pop_symmetry : ∀ (js : List Jamo)
    (b : BlockComposer), js.all isSingularJamo = true →
    pushAll BlockComposer.new js = some b →
    popN b js.length = (BlockComposer.new, js.reverse) := by
  intro js b hall hp
  obtain ⟨hw, hsl⟩ := pushAll_spec js [] BlockComposer.new b wfP_new rfl
    hall hp
  simp only [List.nil_append] at hsl
  cases js with
  | nil =>
    simp only [pushAll, Option.some.injEq] at hp
    subst hp
    rfl
  | cons j js =>
    have hne : slotList b ≠ [] := by rw [hsl]; simp
    have hi1 := wfP_i1_of_ne_nil b hw hne
    have := popN_complete (j :: js).length b (by rw [hsl]) hi1
    rw [this, hsl]

/-- Witness for C2 amended at the ㄱㅏㄴ scenario: after pushing the three
singular jamo, three pops return ㄴ, ㅏ, ㄱ and leave a fresh composer. -/
theorem c2_singular_push_pop_symmetry_witness :
    popN (⟨.expectingCompositeFinal, some (Jamo.consonant .giyeok), none,
        some (Jamo.vowel .a), none, some (Jamo.consonant .nieun), none⟩ :
        BlockComposer) 3 =
      (BlockComposer.new, [Jamo.consonant .nieun, Jamo.vowel .a,
        Jamo.consonant .giyeok]) :=
  c2_singular_push_pop_symmetry
    [Jamo.consonant .giyeok, Jamo.vowel .a, Jamo.consonant .nieun]
    ⟨.expectingCompositeFinal, some (Jamo.consonant .giyeok), none,
      some (Jamo.vowel .a), none, some (Jamo.consonant .nieun), none⟩
    (by decide) (by decide)


/-- Counterexample to C4 as stated: with current block 닳 (ㄷㅏᆯᇂ, a
composite final), pushing ㅏ signals `PopAndStartNewBlock` and the word
push returns `Continue`, but the sealed block 달 retains the final
consonant ㄹ — it is not final-less as the claim states. -/
theorem c4_counterexample :
    wordPushFold HangulWordComposer.new [Jamo.consonant .digeut,
        Jamo.vowel .a, Jamo.consonant .rieul, Jamo.consonant .hieut] =
      ⟨[], ⟨.expectingNextBlock, some (Jamo.consonant .digeut), none,
        some (Jamo.vowel .a), none, some (Jamo.consonant .rieul),
        some (Jamo.consonant .hieut)⟩⟩ ∧
    ((⟨[], ⟨.expectingNextBlock, some (Jamo.consonant .digeut), none,
        some (Jamo.vowel .a), none, some (Jamo.consonant .rieul),
        some (Jamo.consonant .hieut)⟩⟩ :
        HangulWordComposer).cur_block.push (Jamo.vowel .a)).2 =
      BlockPushResult.popAndStartNewBlock ∧
    (⟨[], ⟨.expectingNextBlock, some (Jamo.consonant .digeut), none,
        some (Jamo.vowel .a), none, some (Jamo.consonant .rieul),
        some (Jamo.consonant .hieut)⟩⟩ :
        HangulWordComposer).push (Jamo.vowel .a) =
      (⟨[⟨Jamo.consonant .digeut, Jamo.vowel .a,
          some (Jamo.consonant .rieul)⟩],
        ⟨.expectingCompositeVowelOrFinal, some (Jamo.consonant .hieut),
          none, some (Jamo.vowel .a), none, none, none⟩⟩,
        Except.ok WordPushResult.continue) ∧
    (⟨Jamo.consonant .digeut, Jamo.vowel .a,
      some (Jamo.consonant .rieul)⟩ : HangulBlock).final_optional ≠
      none := by decide

/-- C4 amended: when the Block Engine signals `PopAndStartNewBlock` and
the word push returns `Continue`, the word composer detaches the trailing
final-consonant slot (the second slot of a composite final, otherwise the
sole final), seals the remaining block — whose final is the remaining
first final slot: the first cluster consonant if the final was composite,
none otherwise — onto the sealed-block sequence, and pushes the detached
consonant followed by the new jamo into a fresh block, both pushes
succeeding. -/
theorem c4_pop_and_start_new_block (w w2 : HangulWordComposer) (j : Jamo)
    (h1 : (w.cur_block.push j).2 = BlockPushResult.popAndStartNewBlock)
    (h2 : w.push j = (w2, Except.ok WordPushResult.continue)) :
    ∃ l b,
      (w.cur_block.pop_end_consonant).2 = some l ∧
      w2.prev_blocks = w.prev_blocks ++ [b] ∧
      b.final_optional = (match w.cur_block.final_second with
        | some _ => w.cur_block.final_first
        | none => none) ∧
      (BlockComposer.new.push l).2 = BlockPushResult.success ∧
      ((BlockComposer.new.push l).1.push j).2 = BlockPushResult.success ∧
      w2.cur_block = ((BlockComposer.new.push l).1.push j).1 := by
  obtain ⟨hst, hj⟩ := blockPush_popAndStart_cases w.cur_block j h1
  have hunch : (w.cur_block.push j).1 = w.cur_block :=
    blockPush_not_success_unchanged _ _ (by rw [h1]; simp)
  unfold HangulWordComposer.push at h2
  rcases hp : w.cur_block.push j with ⟨cb, r⟩
  have hcb : cb = w.cur_block := by rw [hp] at hunch; exact hunch
  have hr : r = BlockPushResult.popAndStartNewBlock := by
    rw [hp] at h1; exact h1
  rw [hp] at h2
  subst hcb
  subst hr
  simp only [] at h2
  unfold HangulWordComposer.pop_and_start_new_block at h2
  unfold BlockComposer.pop_end_consonant at h2
  simp only [] at h2
  rcases hf2 : w.cur_block.final_second with _ | l2
  case some =>
    rw [hf2] at h2
    simp only [] at h2
    unfold HangulWordComposer.complete_current_block at h2
    simp only [] at h2
    generalize hB2 : (BlockComposer.mk w.cur_block.state
      w.cur_block.initial_first w.cur_block.initial_second
      w.cur_block.vowel_first w.cur_block.vowel_second
      w.cur_block.final_first none) = B2 at h2
    have hB2f2 : B2.final_second = none := by rw [← hB2]
    have hB2f1 : B2.final_first = w.cur_block.final_first := by rw [← hB2]
    have hB2st : B2.state = w.cur_block.state := by rw [← hB2]
    rcases ht : B2.try_as_complete_block with e | st2 <;> rw [ht] at h2
    · exact absurd (congrArg Prod.snd h2) (by simp)
    cases st2 with
    | complete blk =>
      simp only [] at h2
      rcases hq2 : ((BlockComposer.new.push l2).1.push j).2 with
        _ | _ | _ | _ | _ <;> rw [hq2] at h2
      case success =>
        obtain ⟨hw2, -⟩ := Prod.mk.injEq .. ▸ h2
        have hl2succ : (BlockComposer.new.push l2).2 =
            BlockPushResult.success := by
          by_contra hns
          have he : (BlockComposer.new.push l2).1 = BlockComposer.new :=
            blockPush_not_success_unchanged _ _ hns
          rw [he] at hq2
          have : (BlockComposer.new.push j).2 =
              BlockPushResult.invalidHangul := by
            rcases hj with ⟨v, rfl⟩ | ⟨v, rfl⟩ <;> rfl
          rw [hq2] at this
          exact absurd this (by simp)
        refine ⟨l2, blk, ?_, ?_, ?_, hl2succ, hq2, ?_⟩
        · unfold BlockComposer.pop_end_consonant
          rw [hf2]
        · rw [← hw2]
        · simp only []
          rw [try_complete_block_final B2 blk hB2f2 ht, hB2f1]
        · rw [← hw2]
      all_goals exact absurd (congrArg Prod.snd h2) (by simp)
    | incomplete c =>
      exact absurd (congrArg Prod.snd h2) (by simp)
    | empty =>
      simp only [] at h2
      have hf1none : B2.final_first = none :=
        try_complete_block_empty B2 hB2f2 ht
      have hns : (B2.push l2).2 ≠ BlockPushResult.success :=
        push_no_success_of_no_f1 B2 l2 (by rw [hB2st]; exact hst) hf1none
      have he : (B2.push l2).1 = B2 :=
        blockPush_not_success_unchanged _ _ hns
      rw [he] at h2
      have hpj : (B2.push j).2 = BlockPushResult.popAndStartNewBlock :=
        push_vowelish_popAndStart B2 j (by rw [hB2st]; exact hst) hj
      rw [hpj] at h2
      exact absurd (congrArg Prod.snd h2) (by simp)
  case none =>
    rw [hf2] at h2
    simp only [] at h2
    rcases hf1 : w.cur_block.final_first with _ | l1
    · rw [hf1] at h2
      simp only [] at h2
      exact absurd (congrArg Prod.snd h2) (by simp)
    · rw [hf1] at h2
      simp only [] at h2
      unfold HangulWordComposer.complete_current_block at h2
      simp only [] at h2
      generalize hB2 : (BlockComposer.mk w.cur_block.state
        w.cur_block.initial_first w.cur_block.initial_second
        w.cur_block.vowel_first w.cur_block.vowel_second
        none none) = B2 at h2
      have hB2f2 : B2.final_second = none := by rw [← hB2]
      have hB2f1 : B2.final_first = none := by rw [← hB2]
      have hB2st : B2.state = w.cur_block.state := by rw [← hB2]
      rcases ht : B2.try_as_complete_block with e | st2 <;> rw [ht] at h2
      · exact absurd (congrArg Prod.snd h2) (by simp)
      cases st2 with
      | complete blk =>
        simp only [] at h2
        rcases hq2 : ((BlockComposer.new.push l1).1.push j).2 with
          _ | _ | _ | _ | _ <;> rw [hq2] at h2
        case success =>
          obtain ⟨hw2, -⟩ := Prod.mk.injEq .. ▸ h2
          have hl1succ : (BlockComposer.new.push l1).2 =
              BlockPushResult.success := by
            by_contra hns
            have he : (BlockComposer.new.push l1).1 = BlockComposer.new :=
              blockPush_not_success_unchanged _ _ hns
            rw [he] at hq2
            have : (BlockComposer.new.push j).2 =
                BlockPushResult.invalidHangul := by
              rcases hj with ⟨v, rfl⟩ | ⟨v, rfl⟩ <;> rfl
            rw [hq2] at this
            exact absurd this (by simp)
          refine ⟨l1, blk, ?_, ?_, ?_, hl1succ, hq2, ?_⟩
          · unfold BlockComposer.pop_end_consonant
            rw [hf2, hf1]
          · rw [← hw2]
          · simp only []
            rw [try_complete_block_final B2 blk hB2f2 ht, hB2f1]
          · rw [← hw2]
        all_goals exact absurd (congrArg Prod.snd h2) (by simp)
      | incomplete c =>
        exact absurd (congrArg Prod.snd h2) (by simp)
      | empty =>
        simp only [] at h2
        have hns : (B2.push l1).2 ≠ BlockPushResult.success :=
          push_no_success_of_no_f1 B2 l1 (by rw [hB2st]; exact hst) hB2f1
        have he : (B2.push l1).1 = B2 :=
          blockPush_not_success_unchanged _ _ hns
        rw [he] at h2
        have hpj : (B2.push j).2 = BlockPushResult.popAndStartNewBlock :=
          push_vowelish_popAndStart B2 j (by rw [hB2st]; exact hst) hj
        rw [hpj] at h2
        exact absurd (congrArg Prod.snd h2) (by simp)

/-- Witness for C4 amended at the 닳 + ㅏ scenario. -/
theorem c4_pop_and_start_new_block_witness :
    ∃ l b,
      ((⟨[], ⟨.expectingNextBlock, some (Jamo.consonant .digeut), none,
          some (Jamo.vowel .a), none, some (Jamo.consonant .rieul),
          some (Jamo.consonant .hieut)⟩⟩ :
          HangulWordComposer).cur_block.pop_end_consonant).2 = some l ∧
      (⟨[⟨Jamo.consonant .digeut, Jamo.vowel .a,
          some (Jamo.consonant .rieul)⟩],
        ⟨.expectingCompositeVowelOrFinal, some (Jamo.consonant .hieut),
          none, some (Jamo.vowel .a), none, none, none⟩⟩ :
          HangulWordComposer).prev_blocks =
        (⟨[], ⟨.expectingNextBlock, some (Jamo.consonant .digeut), none,
          some (Jamo.vowel .a), none, some (Jamo.consonant .rieul),
          some (Jamo.consonant .hieut)⟩⟩ :
          HangulWordComposer).prev_blocks ++ [b] ∧
      (b.final_optional = match (⟨[], ⟨.expectingNextBlock,
          some (Jamo.consonant .digeut), none, some (Jamo.vowel .a), none,
          some (Jamo.consonant .rieul), some (Jamo.consonant .hieut)⟩⟩ :
          HangulWordComposer).cur_block.final_second with
        | some _ => (⟨[], ⟨.expectingNextBlock,
            some (Jamo.consonant .digeut), none, some (Jamo.vowel .a),
            none, some (Jamo.consonant .rieul),
            some (Jamo.consonant .hieut)⟩⟩ :
            HangulWordComposer).cur_block.final_first
        | none => none) ∧
      (BlockComposer.new.push l).2 = BlockPushResult.success ∧
      ((BlockComposer.new.push l).1.push (Jamo.vowel .a)).2 =
        BlockPushResult.success ∧
      (⟨[⟨Jamo.consonant .digeut, Jamo.vowel .a,
          some (Jamo.consonant .rieul)⟩],
        ⟨.expectingCompositeVowelOrFinal, some (Jamo.consonant .hieut),
          none, some (Jamo.vowel .a), none, none, none⟩⟩ :
          HangulWordComposer).cur_block =
        ((BlockComposer.new.push l).1.push (Jamo.vowel .a)).1 :=
  c4_pop_and_start_new_block
    ⟨[], ⟨.expectingNextBlock, some (Jamo.consonant .digeut), none,
      some (Jamo.vowel .a), none, some (Jamo.consonant .rieul),
      some (Jamo.consonant .hieut)⟩⟩
    ⟨[⟨Jamo.consonant .digeut, Jamo.vowel .a,
        some (Jamo.consonant .rieul)⟩],
      ⟨.expectingCompositeVowelOrFinal, some (Jamo.consonant .hieut),
        none, some (Jamo.vowel .a), none, none, none⟩⟩
    (Jamo.vowel .a) (by decide) (by decide)

/-- C6: whenever the block pop reports `PoppedAndEmpty` or `None`, the
word-level pop removes the last sealed block (if any) from the sequence,
reconstitutes it via `from_composed_block` as the new in-progress block,
and still returns the popped jamo (or `none`) to the caller. -/
theorem c6_pop_reopens_previous_block : ∀ w : HangulWordComposer,
    (∀ b2 l, w.cur_block.pop = (b2, BlockPopStatus.poppedAndEmpty l) →
      (∀ ps bl, w.prev_blocks = ps ++ [bl] →
        ∃ cb, BlockComposer.from_composed_block bl = Except.ok cb ∧
          w.pop = (⟨ps, cb⟩, Except.ok (some l))) ∧
      (w.prev_blocks = [] →
        w.pop = (⟨[], b2⟩, Except.ok (some l)))) ∧
    (∀ b2, w.cur_block.pop = (b2, BlockPopStatus.none) →
      (∀ ps bl, w.prev_blocks = ps ++ [bl] →
        ∃ cb, BlockComposer.from_composed_block bl = Except.ok cb ∧
          w.pop = (⟨ps, cb⟩, Except.ok none)) ∧
      (w.prev_blocks = [] →
        w.pop = (⟨[], b2⟩, Except.ok none))) := by
  intro w
  constructor
  · intro b2 l hq
    constructor
    · intro ps bl hprev
      obtain ⟨cb, hcb⟩ := from_composed_block_ok bl
      refine ⟨cb, hcb, ?_⟩
      unfold HangulWordComposer.pop
      rw [hq]
      simp only []
      unfold HangulWordComposer.prev_block_to_cur
      simp only [hprev, List.getLast?_concat, List.dropLast_concat, hcb]
    · intro hprev
      unfold HangulWordComposer.pop
      rw [hq]
      simp only []
      unfold HangulWordComposer.prev_block_to_cur
      simp [hprev]
  · intro b2 hq
    constructor
    · intro ps bl hprev
      obtain ⟨cb, hcb⟩ := from_composed_block_ok bl
      refine ⟨cb, hcb, ?_⟩
      unfold HangulWordComposer.pop
      rw [hq]
      simp only []
      unfold HangulWordComposer.prev_block_to_cur
      simp only [hprev, List.getLast?_concat, List.dropLast_concat, hcb]
    · intro hprev
      unfold HangulWordComposer.pop
      rw [hq]
      simp only []
      unfold HangulWordComposer.prev_block_to_cur
      simp [hprev]

/-- Witness for C6: popping the lone ㄴ of the in-progress block of a word
with sealed block 안 reopens 안 as the in-progress block. -/
theorem c6_pop_reopens_previous_block_witness :
    ∃ cb, BlockComposer.from_composed_block
        ⟨Jamo.consonant .ieung, Jamo.vowel .a,
          some (Jamo.consonant .nieun)⟩ = Except.ok cb ∧
      (⟨[⟨Jamo.consonant .ieung, Jamo.vowel .a,
          some (Jamo.consonant .nieun)⟩],
        ⟨.expectingDoubleInitialOrVowel, some (Jamo.consonant .nieun),
          none, none, none, none, none⟩⟩ : HangulWordComposer).pop =
        (⟨[], cb⟩, Except.ok (some (Jamo.consonant .nieun))) :=
  ((c6_pop_reopens_previous_block
      ⟨[⟨Jamo.consonant .ieung, Jamo.vowel .a,
          some (Jamo.consonant .nieun)⟩],
        ⟨.expectingDoubleInitialOrVowel, some (Jamo.consonant .nieun),
          none, none, none, none, none⟩⟩).1
    ⟨.expectingInitial, none, none, none, none, none, none⟩
    (Jamo.consonant .nieun) (by decide)).1 []
    ⟨Jamo.consonant .ieung, Jamo.vowel .a, some (Jamo.consonant .nieun)⟩
    (by decide)

/-- C7: if the word composer reports `Continue` for a pushed character the
finished-text buffer is unchanged; for any other `ok` outcome (including
`NonHangul` and `InvalidHangul`) the word composer is unchanged by the
word-level push, and the string composer appends the active word's
rendered string followed by the raw character to the finished text and
resets the active word. -/
theorem c7_flush_on_non_continue : ∀ (s : StringComposer) (c : Nat),
    (∀ cur2, s.current.push_char c =
        (cur2, Except.ok WordPushResult.continue) →
      s.push_char c = (⟨s.completed, cur2⟩, Except.ok ())) ∧
    (∀ cur2 res, s.current.push_char c = (cur2, Except.ok res) →
      res ≠ WordPushResult.continue →
      cur2 = s.current ∧
      (∀ str, s.current.as_string = Except.ok str →
        s.push_char c = (⟨s.completed ++ str ++ [c],
          HangulWordComposer.new⟩, Except.ok ()))) := by
  intro s c
  constructor
  · intro cur2 hq
    unfold StringComposer.push_char
    rw [hq]
  · intro cur2 res hq hres
    have hcur := wordPushChar_nonContinue_unchanged s.current cur2 c res
      hq hres
    refine ⟨hcur, ?_⟩
    intro str hstr
    unfold StringComposer.push_char
    rw [hq]
    subst hcur
    cases res
    · exact absurd rfl hres
    all_goals
      simp only []
      unfold StringComposer.handle_invalid_input
      simp only []
      rw [hstr]

/-- Witness for C7: pushing the non-Hangul character 65 into a fresh
string composer appends it to the finished text and resets the word. -/
theorem c7_flush_on_non_continue_witness :
    StringComposer.new.push_char 65 =
      (⟨[] ++ [] ++ [65], HangulWordComposer.new⟩, Except.ok ()) :=
  ((c7_flush_on_non_continue StringComposer.new 65).2
    HangulWordComposer.new WordPushResult.nonHangul (by decide)
    (by decide)).2 [] (by decide)

/-- C8: the string-level pop takes a jamo from the active word first and
then leaves the finished-text buffer untouched; only when the word yields
no jamo does it remove and return the last character of the finished text,
returning `none` exactly when the finished text is empty too. -/
theorem c8_pop_word_first : ∀ s : StringComposer,
    (∀ cur2 j, s.current.pop = (cur2, Except.ok (some j)) →
      s.pop = (⟨s.completed, cur2⟩,
        Except.ok (j.char_modern j.surface_position))) ∧
    (∀ cur2, s.current.pop = (cur2, Except.ok none) →
      s.pop = (⟨s.completed.dropLast, cur2⟩,
        Except.ok s.completed.getLast?)) := by
  intro s
  constructor
  · intro cur2 j hq
    unfold StringComposer.pop
    rw [hq]
  · intro cur2 hq
    unfold StringComposer.pop
    rw [hq]
    simp only []
    rcases hl : s.completed.getLast? with _ | c0
    · have : s.completed = [] := List.getLast?_eq_none_iff.mp hl
      rw [this]
      rfl
    · rfl

/-- Witness for C8: with finished text "H" and a pending ㅇ in the active
word, pop returns the modern jamo ᄋ and leaves the finished text. -/
theorem c8_pop_word_first_witness :
    (⟨[72], ⟨[], ⟨.expectingDoubleInitialOrVowel,
        some (Jamo.consonant .ieung), none, none, none, none, none⟩⟩⟩ :
        StringComposer).pop =
      (⟨[72], ⟨[], ⟨.expectingInitial, none, none, none, none, none,
        none⟩⟩⟩, Except.ok (some 0x110B)) :=
  (c8_pop_word_first
    ⟨[72], ⟨[], ⟨.expectingDoubleInitialOrVowel,
      some (Jamo.consonant .ieung), none, none, none, none, none⟩⟩⟩).1
    ⟨[], ⟨.expectingInitial, none, none, none, none, none, none⟩⟩
    (Jamo.consonant .ieung) (by decide)

/-- C10: a popped jamo is surfaced by the string composer as its modern
position-specific codepoint; any such surface codepoint classifies as
`Modern` (never compatibility); an incomplete block renders as the modern
jamo character; and pushing compatibility ㅇ (U+3147) into a fresh string
composer renders as modern ᄋ (U+110B). -/
theorem c10_modern_jamo_surface :
    (∀ (s : StringComposer) (cur2 : HangulWordComposer) (j : Jamo),
      s.current.pop = (cur2, Except.ok (some j)) →
      (s.pop).2 = Except.ok (j.char_modern j.surface_position)) ∧
    (∀ (j : Jamo) (c : Nat), j.char_modern j.surface_position = some c →
      JamoUnicodeType.evaluate c = JamoUnicodeType.modern) ∧
    (∀ (b : BlockComposer) (j : Jamo),
      b.try_as_complete_block =
        Except.ok (BlockCompletionStatus.incomplete j) →
      b.block_as_string = Except.ok (j.char_modern j.surface_position)) ∧
    ((StringComposer.new.push_char 0x3147).1.as_string =
      Except.ok [0x110B]) := by
  refine ⟨?_, ?_, ?_, ?_⟩
  · intro s cur2 j hq
    unfold StringComposer.pop
    rw [hq]
  · decide
  · intro b j h
    unfold BlockComposer.block_as_string
    rw [h]
  · rfl

/-- Witness for C10: the incomplete block holding only ㅇ renders as the
modern jamo codepoint U+110B. -/
theorem c10_modern_jamo_surface_witness :
    (⟨.expectingDoubleInitialOrVowel, some (Jamo.consonant .ieung), none,
        none, none, none, none⟩ : BlockComposer).block_as_string =
      Except.ok (some 0x110B) :=
  c10_modern_jamo_surface.2.2.1
    ⟨.expectingDoubleInitialOrVowel, some (Jamo.consonant .ieung), none,
      none, none, none, none⟩ (Jamo.consonant .ieung) (by decide)


end HangulCd
